import Mathlib

/-!
# Tissue expression colouring (`tissueExpressionBAR.js`)

A shallow embedding of the data pipeline of `src/tissueExpressionBAR.js`:
the catalog lookup and expression query of `RetrieveOnlineBARData`, and the
statistics and colouring of `CreateSVGExpressionData`.

Conventions of the embedding.

* JavaScript Numbers are modelled in exact arithmetic: a finite Number is a
  rational, and `NaN`, `Infinity`, `-Infinity` are kept as separate values.
  Rounding of IEEE doubles is not modelled and `-0` is identified with `0`.
* JavaScript strings are Lean strings; the character-level functions work on
  the list of characters.
* JavaScript objects with string keys are association lists kept in
  `Object.keys` order (insertion order; a new key is appended).
* Asynchronous requests are modelled by the list of requests a function
  issues, and a response handler by a function on the state.
-/

namespace TissueExpressionBAR

/-! ## Numbers -/

/-- A JavaScript Number in exact arithmetic. -/
inductive JSNum where
  | fin (q : ℚ)
  | nan
  | posInf
  | negInf
  deriving DecidableEq

namespace JSNum

/-- Unary minus. -/
def neg : JSNum → JSNum
  | fin q => fin (-q)
  | nan => nan
  | posInf => negInf
  | negInf => posInf

/-- The `+` operator on Numbers. -/
def add : JSNum → JSNum → JSNum
  | nan, _ => nan
  | _, nan => nan
  | fin a, fin b => fin (a + b)
  | fin _, posInf => posInf
  | fin _, negInf => negInf
  | posInf, fin _ => posInf
  | negInf, fin _ => negInf
  | posInf, posInf => posInf
  | negInf, negInf => negInf
  | posInf, negInf => nan
  | negInf, posInf => nan

/-- The binary `-` operator on Numbers. -/
def sub (a b : JSNum) : JSNum := add a (neg b)

/-- Sign of an infinite result: positive when `pos` is true. -/
def infOfSign (pos : Bool) : JSNum := if pos then posInf else negInf

/-- The `*` operator on Numbers. -/
def mul : JSNum → JSNum → JSNum
  | nan, _ => nan
  | _, nan => nan
  | fin a, fin b => fin (a * b)
  | fin a, posInf => if a = 0 then nan else infOfSign (decide (0 < a))
  | fin a, negInf => if a = 0 then nan else infOfSign (decide (a < 0))
  | posInf, fin b => if b = 0 then nan else infOfSign (decide (0 < b))
  | negInf, fin b => if b = 0 then nan else infOfSign (decide (b < 0))
  | posInf, posInf => posInf
  | negInf, negInf => posInf
  | posInf, negInf => negInf
  | negInf, posInf => negInf

/-- The `/` operator on Numbers; a zero divisor is taken as `+0`. -/
def div : JSNum → JSNum → JSNum
  | nan, _ => nan
  | _, nan => nan
  | fin a, fin b =>
      if b = 0 then (if a = 0 then nan else infOfSign (decide (0 < a)))
      else fin (a / b)
  | fin _, posInf => fin 0
  | fin _, negInf => fin 0
  | posInf, fin b => infOfSign (decide (0 ≤ b))
  | negInf, fin b => infOfSign (decide (b < 0))
  | posInf, posInf => nan
  | negInf, negInf => nan
  | posInf, negInf => nan
  | negInf, posInf => nan

/-- The `<` operator on Numbers: false as soon as one side is `NaN`. -/
def lt : JSNum → JSNum → Bool
  | nan, _ => false
  | _, nan => false
  | fin a, fin b => decide (a < b)
  | fin _, posInf => true
  | fin _, negInf => false
  | posInf, _ => false
  | negInf, fin _ => true
  | negInf, posInf => true
  | negInf, negInf => false

/-- The `>` operator on Numbers. -/
def gt (a b : JSNum) : Bool := lt b a

/-- The value is `NaN`. -/
def isNaN : JSNum → Bool
  | nan => true
  | _ => false

end JSNum

/-! ## Characters and numeric strings -/

/-- White space and line terminators, the characters `trim` removes. -/
def isStrWhiteSpaceChar (c : Char) : Bool :=
  let n := c.toNat
  n = 0x09 || n = 0x0A || n = 0x0B || n = 0x0C || n = 0x0D || n = 0x20 ||
  n = 0xA0 || n = 0x1680 || (0x2000 ≤ n && n ≤ 0x200A) || n = 0x2028 ||
  n = 0x2029 || n = 0x202F || n = 0x205F || n = 0x3000 || n = 0xFEFF

/-- Characters of `String.prototype.trimStart`. -/
def trimStartChars (cs : List Char) : List Char :=
  cs.dropWhile isStrWhiteSpaceChar

/-- Characters of `String.prototype.trim`. -/
def trimChars (cs : List Char) : List Char :=
  (trimStartChars (trimStartChars cs).reverse).reverse

/-- The method `String.prototype.trim`. -/
def trim (s : String) : String := ⟨trimChars s.data⟩

/-- A decimal digit. -/
def isDecimalDigit (c : Char) : Bool := 48 ≤ c.toNat && c.toNat ≤ 57

/-- Value of a hexadecimal digit, if the character is one. -/
def hexDigitValue (c : Char) : Option Nat :=
  let n := c.toNat
  if 48 ≤ n ∧ n ≤ 57 then some (n - 48)
  else if 97 ≤ n ∧ n ≤ 102 then some (n - 87)
  else if 65 ≤ n ∧ n ≤ 70 then some (n - 55)
  else none

/-- Value of a run of decimal digits. -/
def decimalValue (ds : List Char) : Nat :=
  ds.foldl (fun acc c => acc * 10 + (c.toNat - 48)) 0

/-- Value of a run of digits in the given radix; `none` when a character is
not a digit of that radix. -/
def radixValue (radix : Nat) : List Char → Nat → Option Nat
  | [], acc => some acc
  | c :: cs, acc =>
      match hexDigitValue c with
      | some d => if d < radix then radixValue radix cs (acc * radix + d) else none
      | none => none

/-- Longest run of decimal digits at the head, and what follows it. -/
def spanDigits (cs : List Char) : List Char × List Char :=
  (cs.takeWhile isDecimalDigit, cs.dropWhile isDecimalDigit)

/-- What follows `pat` when `cs` starts with `pat`. -/
def dropLeading : List Char → List Char → Option (List Char)
  | [], cs => some cs
  | _ :: _, [] => none
  | p :: ps, c :: cs => if p = c then dropLeading ps cs else none

/-- The power `10 ^ e` for an integer exponent. -/
def pow10 (e : Int) : ℚ :=
  if 0 ≤ e then ((10 ^ e.toNat : Nat) : ℚ) else 1 / ((10 ^ (-e).toNat : Nat) : ℚ)

/-- An `ExponentPart` at the head: its value and what follows; without a
well-formed exponent nothing is consumed. -/
def parseExponentPart (cs : List Char) : Int × List Char :=
  match cs with
  | c :: rest =>
      if c = 'e' ∨ c = 'E' then
        match rest with
        | '+' :: r =>
            let ds := spanDigits r
            if ds.1 = [] then (0, cs) else ((decimalValue ds.1 : Int), ds.2)
        | '-' :: r =>
            let ds := spanDigits r
            if ds.1 = [] then (0, cs) else (-(decimalValue ds.1 : Int), ds.2)
        | _ =>
            let ds := spanDigits rest
            if ds.1 = [] then (0, cs) else ((decimalValue ds.1 : Int), ds.2)
      else (0, cs)
  | [] => (0, cs)

/-- Longest `StrUnsignedDecimalLiteral` at the head: its value and what
follows, or `none` when there is none. -/
def parseUnsignedDecimal (cs : List Char) : Option (JSNum × List Char) :=
  match dropLeading "Infinity".data cs with
  | some rest => some (JSNum.posInf, rest)
  | none =>
      let ip := spanDigits cs
      match ip.2 with
      | '.' :: afterDot =>
          let fp := spanDigits afterDot
          if ip.1 = [] ∧ fp.1 = [] then none
          else
            let ex := parseExponentPart fp.2
            some (JSNum.fin ((decimalValue (ip.1 ++ fp.1) : ℚ) *
              pow10 (ex.1 - (fp.1.length : Int))), ex.2)
      | _ =>
          if ip.1 = [] then none
          else
            let ex := parseExponentPart ip.2
            some (JSNum.fin ((decimalValue ip.1 : ℚ) * pow10 ex.1), ex.2)

/-- Longest `StrDecimalLiteral` (optional sign first) at the head. -/
def parseSignedDecimal (cs : List Char) : Option (JSNum × List Char) :=
  match cs with
  | '+' :: rest => parseUnsignedDecimal rest
  | '-' :: rest => (parseUnsignedDecimal rest).map (fun r => (JSNum.neg r.1, r.2))
  | _ => parseUnsignedDecimal cs

/-- A `NonDecimalIntegerLiteral` (`0x`, `0o`, `0b`), the whole of `cs`. -/
def parseNonDecimal (cs : List Char) : Option JSNum :=
  match cs with
  | '0' :: r :: d :: ds =>
      let radix : Option Nat :=
        if r = 'x' ∨ r = 'X' then some 16
        else if r = 'o' ∨ r = 'O' then some 8
        else if r = 'b' ∨ r = 'B' then some 2
        else none
      match radix with
      | some b => (radixValue b (d :: ds) 0).map (fun n => JSNum.fin (n : ℚ))
      | none => none
  | _ => none

/-- The abstract operation `StringToNumber`, as applied by `Number(s)` and
by `isNaN(s)`: the trimmed string is empty (value `0`) or one numeric
literal, otherwise the result is `NaN`. -/
def stringToNumber (s : String) : JSNum :=
  let cs := trimChars s.data
  if cs = [] then JSNum.fin 0
  else
    match parseNonDecimal cs with
    | some n => n
    | none =>
        match parseSignedDecimal cs with
        | some (n, []) => n
        | _ => JSNum.nan

/-- The function `parseFloat` on a string: the longest decimal literal after
leading white space, `NaN` when there is none. -/
def parseFloatString (s : String) : JSNum :=
  match parseSignedDecimal (trimStartChars s.data) with
  | some (n, _) => n
  | none => JSNum.nan

/-! ## Printing Numbers -/

/-- Number of zeros right after the decimal point of a rational in `(0, 1)`. -/
def leadingZeros : Nat → ℚ → Nat
  | 0, _ => 0
  | fuel + 1, q => if 1 ≤ q * 10 then 0 else 1 + leadingZeros fuel (q * 10)

/-- The decimal exponent `n` of a positive rational: `10^(n-1) ≤ q < 10^n`. -/
def decimalExponent (q : ℚ) : Int :=
  if 1 ≤ q then ((Nat.toDigits 10 ⌊q⌋.toNat).length : Int)
  else -((leadingZeros q.den q : Nat) : Int)

/-- Drop the zeros at the end of a digit string. -/
def stripTrailingZeros (ds : List Char) : List Char :=
  (ds.reverse.dropWhile (fun c => c = '0')).reverse

/-- The significant digits of a positive rational: the first 17 digits of
its decimal expansion without the zeros at the end (a Number never needs
more than 17 digits; later digits are dropped). -/
def significantDigits (q : ℚ) : List Char :=
  stripTrailingZeros (Nat.toDigits 10 ⌊q * pow10 (17 - decimalExponent q)⌋.toNat)

/-- The layout step of `Number::toString`: digits `ds` and exponent `n`
(the value is `0.ds × 10^n`) give plain decimal notation for
`-6 < n ≤ 21` and exponential notation otherwise. -/
def formatDecimal (ds : List Char) (n : Int) : List Char :=
  let k : Int := ds.length
  if k ≤ n ∧ n ≤ 21 then ds ++ List.replicate (n - k).toNat '0'
  else if 0 < n ∧ n ≤ 21 then ds.take n.toNat ++ '.' :: ds.drop n.toNat
  else if -6 < n ∧ n ≤ 0 then '0' :: '.' :: (List.replicate (-n).toNat '0' ++ ds)
  else
    let e := n - 1
    let sign := if e < 0 then '-' else '+'
    let expDigits := Nat.toDigits 10 e.natAbs
    match ds with
    | [] => []
    | d :: rest =>
        if rest = [] then d :: 'e' :: sign :: expDigits
        else d :: '.' :: (rest ++ 'e' :: sign :: expDigits)

/-- Characters of `Number::toString` (radix 10). -/
def numberToChars : JSNum → List Char
  | JSNum.nan => "NaN".data
  | JSNum.posInf => "Infinity".data
  | JSNum.negInf => "-Infinity".data
  | JSNum.fin q =>
      if q = 0 then ['0']
      else if q < 0 then '-' :: formatDecimal (significantDigits (-q)) (decimalExponent (-q))
      else formatDecimal (significantDigits q) (decimalExponent q)

/-- The operation `Number::toString` (radix 10). -/
def numberToString (x : JSNum) : String := ⟨numberToChars x⟩

/-- The digits read by `parseInt` in the given radix: the longest run of
digits of that radix, as a value; `NaN` when the run is empty. -/
def parseIntDigits (radix : Nat) (cs : List Char) : JSNum :=
  let ds := cs.takeWhile (fun c =>
    match hexDigitValue c with
    | some d => decide (d < radix)
    | none => false)
  match ds, radixValue radix ds 0 with
  | _ :: _, some n => JSNum.fin (n : ℚ)
  | _, _ => JSNum.nan

/-- The function `parseInt` on a string, without a radix argument. -/
def parseIntString (s : String) : JSNum :=
  let cs := trimStartChars s.data
  let signed : Bool × List Char :=
    match cs with
    | '-' :: rest => (true, rest)
    | '+' :: rest => (false, rest)
    | _ => (false, cs)
  let body : JSNum :=
    match signed.2 with
    | '0' :: 'x' :: rest => parseIntDigits 16 rest
    | '0' :: 'X' :: rest => parseIntDigits 16 rest
    | rest => parseIntDigits 10 rest
  if signed.1 then JSNum.neg body else body

/-- The function `parseInt` applied to a Number: the Number is printed
first and the string is parsed. -/
def parseInt (x : JSNum) : JSNum := parseIntString (numberToString x)

/-- Pad a digit string with zeros on the left up to the given length. -/
def padZeros (len : Nat) (ds : List Char) : List Char :=
  List.replicate (len - ds.length) '0' ++ ds

/-- The method `Number.prototype.toFixed(3)`: `n` is the integer nearest to
`1000 x` (the larger one on a tie), printed with the point before its last
three digits; from `10^21` on the Number is printed as by `toString`. -/
def toFixed3 : JSNum → String
  | JSNum.nan => "NaN"
  | JSNum.posInf => "Infinity"
  | JSNum.negInf => "-Infinity"
  | JSNum.fin q =>
      if (10 : ℚ) ^ 21 ≤ |q| then numberToString (JSNum.fin q)
      else
        let n : Nat := ⌊|q| * 1000 + 1 / 2⌋.toNat
        let ds := padZeros 4 (Nat.toDigits 10 n)
        let body := ds.take (ds.length - 3) ++ '.' :: ds.drop (ds.length - 3)
        ⟨if q < 0 then '-' :: body else body⟩

/-! ## Values -/

/-- The primitive values a sample value can be: what a JSON reply can hold
apart from arrays and objects, and `undefined` for a missing entry. -/
inductive JSVal where
  | undefined
  | null
  | bool (b : Bool)
  | num (n : JSNum)
  | str (s : String)
  deriving DecidableEq

namespace JSVal

/-- The abstract operation `ToNumber`. -/
def toNumber : JSVal → JSNum
  | undefined => JSNum.nan
  | null => JSNum.fin 0
  | bool b => if b then JSNum.fin 1 else JSNum.fin 0
  | num n => n
  | str s => stringToNumber s

/-- The abstract operation `ToString`. -/
def toStr : JSVal → String
  | undefined => "undefined"
  | null => "null"
  | bool b => if b then "true" else "false"
  | num n => numberToString n
  | str s => s

end JSVal

/-- The global function `isNaN`: the argument is converted with `ToNumber`. -/
def isNaN (v : JSVal) : Bool := (JSVal.toNumber v).isNaN

/-- The global function `parseFloat`: the argument is converted with
`ToString` and the string is parsed. Printing a Number and parsing it back
gives the Number again, so a Number is returned as it is. -/
def parseFloat : JSVal → JSNum
  | JSVal.num n => n
  | v => parseFloatString (JSVal.toStr v)

/-! ## Objects -/

/-- A JavaScript object with string keys, as the list of its properties in
`Object.keys` order. -/
abbrev Obj (α : Type) := List (String × α)

namespace Obj

/-- Property read `o[k]`; `none` stands for `undefined`. -/
def getProp {α : Type} : Obj α → String → Option α
  | [], _ => none
  | (k', v) :: rest, k => if k' = k then some v else getProp rest k

/-- Property write `o[k] = v`: an existing key keeps its place, a new key
goes to the end. -/
def setProp {α : Type} : Obj α → String → α → Obj α
  | [], k, v => [(k, v)]
  | (k', v') :: rest, k, v =>
      if k' = k then (k, v) :: rest else (k', v') :: setProp rest k v

/-- The list `Object.keys(o)`. -/
def keys {α : Type} (o : Obj α) : List String := o.map Prod.fst

end Obj

/-! ## Sorting raw values -/

/-- Strict lexicographic order of two strings, character by character. -/
def charsLt : List Char → List Char → Bool
  | _, [] => false
  | [], _ :: _ => true
  | a :: as, b :: bs =>
      if a.toNat < b.toNat then true
      else if b.toNat < a.toNat then false
      else charsLt as bs

/-- The default comparison of `Array.prototype.sort`, as "`x` goes strictly
before `y`": `undefined` goes after every other value, and other values are
compared by their strings. -/
def sortBefore : JSVal → JSVal → Bool
  | JSVal.undefined, _ => false
  | _, JSVal.undefined => true
  | x, y => charsLt (JSVal.toStr x).data (JSVal.toStr y).data

/-- Insert `x` in a sorted list, before the first element that does not go
strictly before it. -/
def sortInsert (x : JSVal) : List JSVal → List JSVal
  | [] => [x]
  | y :: ys => if sortBefore y x then y :: sortInsert x ys else x :: y :: ys

/-- The method `Array.prototype.sort()` without a comparison function, as a
stable sort. -/
def jsSort : List JSVal → List JSVal
  | [] => []
  | x :: xs => sortInsert x (jsSort xs)

/-! ## State of `CreateSVGExpressionData` -/

/-- One entry of `svgValues`: the fields stored for a region. -/
structure RegionValues where
  rawValues : Option (List JSVal)
  average : Option JSNum
  expressionLevel : Option String
  sampleSize : Option Nat
  deriving DecidableEq

/-- The empty object `{}` as an entry of `svgValues`. -/
def RegionValues.empty : RegionValues :=
  { rawValues := none, average := none, expressionLevel := none, sampleSize := none }

/-- One call of `colourSVGSubunit`, the request made to the rendering
surface; `colour = none` is the value `undefined`. -/
structure Colouring where
  whichSVG : String
  svgSubunit : String
  colour : Option String
  expressionLevel : String
  sampleSize : Nat
  deriving DecidableEq

/-- The fields of `CreateSVGExpressionData` used by the statistics, and the
calls of `colourSVGSubunit` made so far. For a field holding a Number,
`none` is the value `undefined`. -/
structure SVGState where
  svgValues : Obj RegionValues
  svgMax : Option JSNum
  svgMin : Option JSNum
  svgMaxAverage : Option JSNum
  svgMaxAverageSample : Option String
  svgMinAverage : Option JSNum
  svgMinAverageSample : Option String
  finishedColouring : Bool
  coloured : List Colouring
  deriving DecidableEq

/-- The statistics fields after the reset at the start of `generateSVG`. -/
def resetState : SVGState :=
  { svgValues := [], svgMax := none, svgMin := none, svgMaxAverage := none,
    svgMaxAverageSample := none, svgMinAverage := none,
    svgMinAverageSample := none, finishedColouring := false, coloured := [] }

/-- A Number operand that may be `undefined`: `ToNumber(undefined)` is `NaN`. -/
def operand : Option JSNum → JSNum
  | some n => n
  | none => JSNum.nan

/-- A loop `for (var i = 0; i < svgSubunits.length; i++)` whose body is
`step`: the turns run in order, and a turn that throws ends the loop. -/
def forEachSubunit (step : SVGState → String → Option SVGState) :
    Option SVGState → List String → Option SVGState
  | st, [] => st
  | none, _ :: _ => none
  | some st, subunit :: rest => forEachSubunit step (step st subunit) rest

/-! ## `findMaxAndMin` -/

/-- The filter loop of `findMaxAndMin`: every value with `isNaN(v) === false`
is pushed as `parseFloat(v)`. -/
def numValuesOf (values : List JSVal) : List JSNum :=
  values.foldl (fun numValues v =>
    if isNaN v = false then numValues ++ [parseFloat v] else numValues) []

/-- The summing loop of `findMaxAndMin`. -/
def sumValuesOf (numValues : List JSNum) : JSNum :=
  numValues.foldl (fun sumValues n => JSNum.add sumValues n) (JSNum.fin 0)

/-- The value `sumValues / numValues.length`. -/
def averageOf (numValues : List JSNum) : JSNum :=
  JSNum.div (sumValuesOf numValues) (JSNum.fin (numValues.length : ℚ))

/-- The value `numValues[numValues.length - 1]`. -/
def maxValueOf (numValues : List JSNum) : Option JSNum :=
  if numValues.length = 0 then none else numValues.get? (numValues.length - 1)

/-- The value `numValues[1]`. -/
def minValueOf (numValues : List JSNum) : Option JSNum :=
  numValues.get? 1

/-- One turn of the loop of `findMaxAndMin`, for the region `subunit`;
`none` when the turn throws (the region or its `rawValues` is missing). -/
def findMaxAndMinStep (st : SVGState) (subunit : String) : Option SVGState :=
  match Obj.getProp st.svgValues subunit with
  | none => none
  | some entry =>
    match entry.rawValues with
    | none => none
    | some raw =>
      let values := jsSort raw
      let numValues := numValuesOf values
      let averageValues := averageOf numValues
      let maxValue := maxValueOf numValues
      let minValue := minValueOf numValues
      let svgMax :=
        match st.svgMax with
        | none => maxValue
        | some cur => if JSNum.gt (operand maxValue) cur then maxValue else some cur
      let svgMin :=
        match st.svgMin with
        | none => minValue
        | some cur => if JSNum.lt (operand minValue) cur then minValue else some cur
      let maxAvg : Option JSNum × Option String :=
        match st.svgMaxAverage with
        | none => (some averageValues, some subunit)
        | some cur =>
            if JSNum.gt averageValues cur then (some averageValues, some subunit)
            else (some cur, st.svgMaxAverageSample)
      let minAvg : Option JSNum × Option String :=
        match st.svgMinAverage with
        | none => (some averageValues, some subunit)
        | some cur =>
            if JSNum.lt averageValues cur then (some averageValues, some subunit)
            else (some cur, st.svgMinAverageSample)
      some { st with
        svgValues := Obj.setProp st.svgValues subunit
          { entry with rawValues := some values, average := some averageValues }
        svgMax := svgMax
        svgMin := svgMin
        svgMaxAverage := maxAvg.1
        svgMaxAverageSample := maxAvg.2
        svgMinAverage := minAvg.1
        svgMinAverageSample := minAvg.2 }

/-- The loop of `findMaxAndMin` over `svgSubunits`. -/
def findMaxAndMinFrom : Option SVGState → List String → Option SVGState :=
  forEachSubunit findMaxAndMinStep

/-- The statistics part of `findMaxAndMin`: the reset of `svgMax` and
`svgMin`, then the loop. -/
def findMaxAndMinLoop (st : SVGState) (svgSubunits : List String) : Option SVGState :=
  findMaxAndMinFrom (some { st with svgMax := none, svgMin := none }) svgSubunits

/-! ## `colourSVGs` -/

/-- The table `colourList` of `percentageToColour`. -/
def colourList : List String :=
  ["#ffff00", "#fffd00", "#fffc00", "#fff900", "#fff800", "#fff600", "#fff500",
   "#fff300", "#fff200", "#fff000", "#ffee00", "#ffec00", "#ffeb00", "#ffe800",
   "#ffe700", "#ffe600", "#ffe300", "#ffe100", "#ffe000", "#ffdf00", "#ffdd00",
   "#ffdb00", "#ffda00", "#ffd800", "#ffd600", "#ffd300", "#ffd200", "#ffd000",
   "#ffcf00", "#ffcc00", "#ffcb00", "#ffc900", "#ffc700", "#ffc500", "#ffc300",
   "#ffc300", "#ffc000", "#ffbf00", "#ffbd00", "#ffbb00", "#ffb900", "#ffb800",
   "#ffb500", "#ffb300", "#ffb200", "#ffb000", "#ffad00", "#ffac00", "#ffa900",
   "#ffa800", "#ffa600", "#ffa400", "#ffa200", "#ffa100", "#ff9e00", "#ff9c00",
   "#ff9a00", "#ff9900", "#ff9600", "#ff9400", "#ff9300", "#ff9000", "#ff8f00",
   "#ff8c00", "#ff8900", "#ff8700", "#ff8600", "#ff8300", "#ff8200", "#ff7f00",
   "#ff7c00", "#ff7b00", "#ff7800", "#ff7600", "#ff7300", "#ff7100", "#ff6e00",
   "#ff6c00", "#ff6900", "#ff6700", "#ff6500", "#ff6100", "#ff5e00", "#ff5c00",
   "#ff5900", "#ff5600", "#ff5300", "#ff5000", "#ff4d00", "#ff4900", "#ff4600",
   "#ff4200", "#ff3d00", "#ff3a00", "#ff3400", "#ff3000", "#ff2a00", "#ff2400",
   "#ff1c00", "#ff1100", "#ff0000"]

/-- The method `percentageToColour`: `colourList[parseInt(percentage)]`;
`none` is `undefined`, the value of an index that is `NaN`, negative or past
the end of the table. -/
def percentageToColour (percentage : JSNum) : Option String :=
  match parseInt percentage with
  | JSNum.fin q => if 0 ≤ q then colourList.get? ⌊q⌋.toNat else none
  | _ => none

/-- The numerator of `colourSVGs` after its clamp at `0`. -/
def numeratorOf (average svgMinAverage : Option JSNum) : JSNum :=
  let numerator := JSNum.sub (operand average) (operand svgMinAverage)
  if JSNum.lt numerator (JSNum.fin 0) then JSNum.fin 0 else numerator

/-- The percentage of `colourSVGs` after its two clamps. The operations are
those of `JSNum`, exact on finite Numbers: the value is the one of the code
wherever the code computes without rounding and without overflow. -/
def percentageOf (average svgMinAverage svgMaxAverage : Option JSNum) : JSNum :=
  let denominator := JSNum.sub (operand svgMaxAverage) (operand svgMinAverage)
  let numerator := numeratorOf average svgMinAverage
  let percentage := JSNum.mul (JSNum.div numerator denominator) (JSNum.fin 100)
  if JSNum.gt percentage (JSNum.fin 100) then JSNum.fin 100
  else if JSNum.lt percentage (JSNum.fin 0) then JSNum.fin 0
  else percentage

/-- The value `parseFloat(numerator + this.svgMinAverage).toFixed(3)`. The
sum is the one of `JSNum`, exact on finite Numbers: the value is the one of
the code wherever the code computes without rounding and without overflow. -/
def expressionLevelOf (average svgMinAverage : Option JSNum) : String :=
  toFixed3 (parseFloat (JSVal.num
    (JSNum.add (numeratorOf average svgMinAverage) (operand svgMinAverage))))

/-- One turn of the loop of `colourSVGs`; `none` when the turn throws (the
region or its `rawValues` is missing). -/
def colourSVGsStep (whichSVG : String) (st : SVGState) (subunit : String) :
    Option SVGState :=
  match Obj.getProp st.svgValues subunit with
  | none => none
  | some entry =>
    match entry.rawValues with
    | none => none
    | some raw =>
      let percentage := percentageOf entry.average st.svgMinAverage st.svgMaxAverage
      let expressionLevel := expressionLevelOf entry.average st.svgMinAverage
      let sampleSize := raw.length
      let colourFill := percentageToColour percentage
      some { st with
        svgValues := Obj.setProp st.svgValues subunit
          { entry with expressionLevel := some expressionLevel, sampleSize := some sampleSize }
        coloured := st.coloured ++
          [{ whichSVG := whichSVG, svgSubunit := subunit, colour := colourFill,
             expressionLevel := expressionLevel, sampleSize := sampleSize }]
        finishedColouring := true }

/-- The loop of `colourSVGs` over `svgSubunits`. -/
def colourSVGsFrom (whichSVG : String) : Option SVGState → List String → Option SVGState :=
  forEachSubunit (colourSVGsStep whichSVG)

/-- The method `colourSVGs`. -/
def colourSVGs (whichSVG : String) (st : SVGState) (svgSubunits : List String) :
    Option SVGState :=
  colourSVGsFrom whichSVG (some st) svgSubunits

/-- The method `findMaxAndMin`: the statistics, then `colourSVGs`. -/
def findMaxAndMin (whichSVG : String) (st : SVGState) (svgSubunits : List String) :
    Option SVGState :=
  match findMaxAndMinLoop st svgSubunits with
  | none => none
  | some st' => colourSVGs whichSVG st' svgSubunits

/-! ## `RetrieveOnlineBARData` -/

/-- One entry of the catalog document `SampleData.json`: the data source
(`none` when the field `db` is absent) and the sample IDs of every region. -/
structure SampleInfo where
  db : Option String
  sample : Obj (List String)
  deriving DecidableEq

/-- The values fetched for a diagram: region, then sample name, then locus. -/
abbrev SampleTable := Obj (Obj (Obj JSVal))

instance instDecidableEqLocusValues : DecidableEq (Obj JSVal) := inferInstance

instance instDecidableEqNameValues : DecidableEq (Obj (Obj JSVal)) := inferInstance

instance instDecidableEqSampleTable : DecidableEq SampleTable := inferInstance

/-- One entry of `eFPObjects`: the fields `sample` and `db`; `none` is
`undefined`. -/
structure EFPEntry where
  sample : Option SampleTable
  db : Option String
  deriving DecidableEq

/-- One element of the reply of the expression query. -/
structure ResponsePair where
  name : String
  value : JSVal
  deriving DecidableEq

/-- The arguments of one call of `callPlantEFP`. -/
structure PlantEFPCall where
  datasource : Option String
  locus : String
  samples : List String
  svg : String
  sampleSubunits : Obj (List String)
  deriving DecidableEq

/-- The name without a final `.svg`, as at the start of `retrieveSampleData`. -/
def stripSvgSuffix (svgName : String) : String :=
  if svgName.data.drop (svgName.data.length - 4) = ".svg".data then
    ⟨svgName.data.take (svgName.data.length - 4)⟩
  else svgName

/-- The loop of `retrieveSampleData` building `sampleIDList`. -/
def sampleIDListOf (sampleOptions : Obj (List String)) : List String :=
  (Obj.keys sampleOptions).foldl (fun sampleIDList subunit =>
    sampleIDList ++ (Obj.getProp sampleOptions subunit).getD []) []

/-- The method `retrieveSampleData`, as the list of the calls of
`callPlantEFP` it makes. -/
def retrieveSampleData (sampleData : Obj SampleInfo) (svgName locus : String) :
    List PlantEFPCall :=
  let svgName := stripSvgSuffix svgName
  if (Obj.keys sampleData).contains svgName then
    match Obj.getProp sampleData svgName with
    | none => []
    | some sampleInfo =>
        let sampleIDList :=
          match sampleInfo.db with
          | some _ => sampleIDListOf sampleInfo.sample
          | none => []
        [{ datasource := sampleInfo.db, locus := locus, samples := sampleIDList,
           svg := svgName, sampleSubunits := sampleInfo.sample }]
  else []

/-- The string a data source is concatenated as; `undefined` gives
the text `undefined`. -/
def datasourceText : Option String → String
  | some d => d
  | none => "undefined"

/-- The loop of `callPlantEFP` over `samples`: every ID between double
quotes, with a comma after each one but the last. -/
def samplesText : List String → String
  | [] => ""
  | [s] => "\"" ++ s ++ "\""
  | s :: t :: rest => "\"" ++ s ++ "\"" ++ "," ++ samplesText (t :: rest)

/-- The value of the parameter `samples` in the URL of `callPlantEFP`. -/
def samplesParam (samples : List String) : String :=
  "[" ++ samplesText samples ++ "]"

/-- The URL that `callPlantEFP` opens and sends. -/
def callPlantEFP (call : PlantEFPCall) : String :=
  "https://bar.utoronto.ca/~asullivan/webservices/plantefp.cgi?" ++
  "datasource=" ++ datasourceText call.datasource ++ "&" ++
  "id=" ++ call.locus ++ "&" ++
  "samples=" ++ samplesParam call.samples

/-- Characters of `replace(/\+/g, '%2B')`. -/
def replacePlus : List Char → List Char
  | [] => []
  | c :: cs => if c = '+' then '%' :: '2' :: 'B' :: replacePlus cs else c :: replacePlus cs

/-- Characters of `replace(/ /g, '+')`. -/
def replaceSpace : List Char → List Char
  | [] => []
  | c :: cs => (if c = ' ' then '+' else c) :: replaceSpace cs

/-- The name `tempName` the response handler computes from `responseName`. -/
def escapeName (responseName : String) : String :=
  ⟨trimChars (replaceSpace (replacePlus responseName.data))⟩

/-- The three writes of the response handler for one region: the region and
the sample name are created when missing, then the value is stored under
the locus. -/
def recordValue (sample : SampleTable) (subunitName tempName locus : String)
    (responseValue : JSVal) : SampleTable :=
  let subunit := (Obj.getProp sample subunitName).getD []
  let named := (Obj.getProp subunit tempName).getD []
  Obj.setProp sample subunitName
    (Obj.setProp subunit tempName (Obj.setProp named locus responseValue))

/-- One turn of the inner loop of the response handler: the value is
recorded under the region when its list of sample IDs includes `tempName`. -/
def attributeStep (sampleSubunits : Obj (List String)) (locus tempName : String)
    (responseValue : JSVal) (sample : SampleTable) (subunitName : String) : SampleTable :=
  match Obj.getProp sampleSubunits subunitName with
  | some ids =>
      if ids.contains tempName then recordValue sample subunitName tempName locus responseValue
      else sample
  | none => sample

/-- The inner loop of the response handler (over `subunitsList`) for the
name `tempName`. -/
def attributeName (sampleSubunits : Obj (List String)) (locus tempName : String)
    (responseValue : JSVal) (subunitsList : List String)
    (sample : SampleTable) : SampleTable :=
  subunitsList.foldl (attributeStep sampleSubunits locus tempName responseValue) sample

/-- One turn of the outer loop of the response handler, for one pair of
the reply. -/
def attributePair (sampleSubunits : Obj (List String)) (locus : String)
    (sample : SampleTable) (pair : ResponsePair) : SampleTable :=
  let responseName := trim pair.name
  let tempName := escapeName responseName
  attributeName sampleSubunits locus tempName pair.value (Obj.keys sampleSubunits) sample

/-- The body of the response handler of `callPlantEFP`, run on a completed
reply with status 200. -/
def onResponse (eFPObjects : Obj EFPEntry) (call : PlantEFPCall)
    (response : List ResponsePair) : Obj EFPEntry :=
  let entry := (Obj.getProp eFPObjects call.svg).getD { sample := none, db := none }
  let sample := entry.sample.getD []
  Obj.setProp eFPObjects call.svg
    { sample := some (response.foldl (attributePair call.sampleSubunits call.locus) sample),
      db := call.datasource }

/-- The handler `xhr.onreadystatechange` of `callPlantEFP`; `readyState` 4
is `XMLHttpRequest.DONE`. -/
def onReadyStateChange (eFPObjects : Obj EFPEntry) (call : PlantEFPCall)
    (readyState status : Nat) (response : List ResponsePair) : Obj EFPEntry :=
  if readyState = 4 ∧ status = 200 then onResponse eFPObjects call response
  else eFPObjects

/-- The value `sample[subunitName][tempName][locus]` of a table of fetched
values, `none` when one of the three keys is missing. -/
def valueAt (sample : SampleTable) (subunitName tempName locus : String) : Option JSVal :=
  ((Obj.getProp sample subunitName).bind (fun subunit => Obj.getProp subunit tempName)).bind
    (fun named => Obj.getProp named locus)

/-- The value `eFPObjects[svg]['sample'][subunitName][tempName][locus]`. -/
def storedValue (eFPObjects : Obj EFPEntry) (svg subunitName tempName locus : String) :
    Option JSVal :=
  ((Obj.getProp eFPObjects svg).bind (fun e => e.sample)).bind
    (fun sample => valueAt sample subunitName tempName locus)

/-! ## `createSVGValues` -/

/-- The inner loop of `createSVGValues` for one region: the value of every
sample name at the locus is pushed on `rawValues`. -/
def pushRawValues (samples : Obj (Obj JSVal)) (locus : String) (entry : RegionValues) :
    RegionValues :=
  (Obj.keys samples).foldl (fun e name =>
    { e with rawValues := some (e.rawValues.getD [] ++
        [(((Obj.getProp samples name).bind (fun m => Obj.getProp m locus)).getD
          JSVal.undefined)]) }) entry

/-- The method `createSVGValues`; `none` when it throws (no reply has been
stored for the diagram). -/
def createSVGValues (eFPObjects : Obj EFPEntry) (st : SVGState) (whichSVG locus : String) :
    Option SVGState :=
  match (Obj.getProp eFPObjects whichSVG).bind (fun e => e.sample) with
  | none => none
  | some svgDataObject =>
      let svgSubunits := Obj.keys svgDataObject
      let svgValues := svgSubunits.foldl (fun values subunit =>
        Obj.setProp values subunit
          (pushRawValues ((Obj.getProp svgDataObject subunit).getD []) locus
            ((Obj.getProp values subunit).getD RegionValues.empty))) st.svgValues
      findMaxAndMin whichSVG { st with svgValues := svgValues } svgSubunits

/-! ## Statements about the statistics -/

/-- The region `svgMaxAverageSample` is the first of `regions` whose average
is the greatest one, and `svgMaxAverage` is that average. -/
def MaxAverageTracked (avg : String → ℚ) (regions : List String) (st : SVGState) : Prop :=
  ∃ before s after, regions = before ++ s :: after ∧
    st.svgMaxAverageSample = some s ∧ st.svgMaxAverage = some (JSNum.fin (avg s)) ∧
    (∀ r ∈ regions, avg r ≤ avg s) ∧ (∀ r ∈ before, avg r < avg s)

/-- The region `svgMinAverageSample` is the first of `regions` whose average
is the least one, and `svgMinAverage` is that average. -/
def MinAverageTracked (avg : String → ℚ) (regions : List String) (st : SVGState) : Prop :=
  ∃ before s after, regions = before ++ s :: after ∧
    st.svgMinAverageSample = some s ∧ st.svgMinAverage = some (JSNum.fin (avg s)) ∧
    (∀ r ∈ regions, avg s ≤ avg r) ∧ (∀ r ∈ before, avg s < avg r)

/-- Every region of `regions` has an entry in `svgValues` with raw values,
and the average `findMaxAndMin` computes from them is the Number `avg r`. -/
def HasAverages (avg : String → ℚ) (regions : List String) (st : SVGState) : Prop :=
  ∀ r ∈ regions, ∃ entry raw, Obj.getProp st.svgValues r = some entry ∧
    entry.rawValues = some raw ∧
    averageOf (numValuesOf (jsSort raw)) = JSNum.fin (avg r)

/-! ## The inverse of the escape -/

/-- Characters of the first inverse substitution of the specification,
every `+` to a space. -/
def replacePlusBySpace : List Char → List Char
  | [] => []
  | c :: cs => (if c = '+' then ' ' else c) :: replacePlusBySpace cs

/-- Characters of the second inverse substitution of the specification,
every `%2B` to `+`, from left to right. -/
def replacePercent2B : List Char → List Char
  | [] => []
  | '%' :: '2' :: 'B' :: rest => '+' :: replacePercent2B rest
  | c :: rest => c :: replacePercent2B rest

/-- The inverse substitutions the specification names for an escaped key:
`+` to a space, then `%2B` to `+`. No function of the source computes them. -/
def unescapeName (key : String) : String :=
  ⟨replacePercent2B (replacePlusBySpace key.data)⟩

/-- The text `%2B` occurs in the characters. -/
def hasPercent2B : List Char → Bool
  | [] => false
  | '%' :: '2' :: 'B' :: _ => true
  | _ :: rest => hasPercent2B rest

/-! ## `InteractiveSVGData` -/

/-- What the field `topExpressionValues` refers to: an object of its own, or
the entry of a locus inside the cached document. The assignment
`this.topExpressionValues = expressionResponse['locus'][locus]` copies no
object: afterwards the field and the document share the entry. -/
inductive TopRef where
  | own (values : Obj JSVal)
  | shared (locus : String)
  deriving DecidableEq

/-- The fields of `InteractiveSVGData`; `expressionValues` is the mapping
`locus` of the cached reference-value document, `none` while the field is
`undefined`. -/
structure InteractiveSVGData where
  expressionValues : Option (Obj (Obj JSVal))
  topExpressionValues : TopRef
  deriving DecidableEq

/-- The object a reader of `topExpressionValues` sees. -/
def readTopExpressionValues (s : InteractiveSVGData) : Option (Obj JSVal) :=
  match s.topExpressionValues with
  | TopRef.own values => some values
  | TopRef.shared locus => s.expressionValues.bind (fun document => Obj.getProp document locus)

/-- The test on `expressionResponse['locus'][locus]` and its two branches:
a locus of the document becomes what `topExpressionValues` refers to; for an
absent locus the key `error` is written on the object the field refers to,
which is an entry of the document when the field shares one. -/
def lookUpLocus (expressionResponse : Obj (Obj JSVal)) (top : TopRef) (locus : String) :
    Obj (Obj JSVal) × TopRef :=
  match Obj.getProp expressionResponse locus with
  | some _ => (expressionResponse, TopRef.shared locus)
  | none =>
      match top with
      | TopRef.own values =>
          (expressionResponse,
            TopRef.own (Obj.setProp values "error" (JSVal.str ("No data for " ++ locus))))
      | TopRef.shared earlier =>
          match Obj.getProp expressionResponse earlier with
          | some values =>
              (Obj.setProp expressionResponse earlier
                (Obj.setProp values "error" (JSVal.str ("No data for " ++ locus))),
                TopRef.shared earlier)
          | none => (expressionResponse, TopRef.shared earlier)

/-- The method `retrieveTopExpressionValues` once the document is cached
(the `else` branch); while `expressionValues` is `undefined` the method only
sends the request for the document and changes no field. -/
def retrieveTopExpressionValues (s : InteractiveSVGData) (locus : String) :
    InteractiveSVGData :=
  match s.expressionValues with
  | none => s
  | some expressionResponse =>
      { expressionValues := some (lookUpLocus expressionResponse s.topExpressionValues locus).1,
        topExpressionValues := (lookUpLocus expressionResponse s.topExpressionValues locus).2 }

/-! ## `updateChecker` -/

/-- The test `checkList.length === this.clickList.length` of `updateChecker`,
with `checkList = Object.keys(eFPObjects)`. -/
def readinessCheck (eFPObjects : Obj EFPEntry) (clickList : List String) : Bool :=
  decide ((Obj.keys eFPObjects).length = clickList.length)

/-- What a chain of `updateChecker` calls has done when it ends: the number
of timer callbacks that ran the readiness test, and the iteration whose
callback called `addSVGtoDOM`, if one did. -/
structure PollResult where
  checks : Nat
  appliedAt : Option Nat
  deriving DecidableEq

/-- The method `updateChecker` from the given iteration on; `observed i` is
the pair of `eFPObjects` and `clickList` that the timer callback of the call
with `iteration = i` finds. -/
def updateChecker (observed : Nat → Obj EFPEntry × List String) (iteration : Nat) :
    PollResult :=
  if iteration < 200 then
    if readinessCheck (observed iteration).1 (observed iteration).2 then
      { checks := 1, appliedAt := some iteration }
    else
      { checks := (updateChecker observed (iteration + 1)).checks + 1,
        appliedAt := (updateChecker observed (iteration + 1)).appliedAt }
  else { checks := 0, appliedAt := none }
termination_by 200 - iteration

/-! ## The request history -/

/-- The fields that `generateSVG` and the response handlers share: the
request history `clickList`, the catalog `sampleData`, the table
`eFPObjects`, the requests sent and not yet answered (a catalog request
keeps the `svgName` and `locus` of its handler, a query the arguments of its
`callPlantEFP`), the pending timers of `updateChecker` (`svgName`, `locus`
and the iteration that set the timer) and the requests for which
`addSVGtoDOM` has been called. The statistics fields and the rendering
surface, which none of these steps reads, are left out. -/
structure AppState where
  desiredDOMid : String
  clickList : List String
  sampleData : Obj SampleInfo
  eFPObjects : Obj EFPEntry
  catalogRequests : List (String × String)
  queries : List PlantEFPCall
  timers : List (String × String × Nat)
  applied : List (String × String)
  deriving DecidableEq

/-- The state after the constructors. -/
def AppState.initial : AppState :=
  { desiredDOMid := "", clickList := [], sampleData := [], eFPObjects := [],
    catalogRequests := [], queries := [], timers := [], applied := [] }

/-- The method `loadSampleData`: the catalog is requested while
`sampleData["AbioticStress"]` is `undefined`, and `retrieveSampleData` runs
at once when that entry is there and `continueForward` is true. -/
def loadSampleData (s : AppState) (svgName locus : String) (continueForward : Bool) :
    AppState :=
  let requested : AppState :=
    if Obj.getProp s.sampleData "AbioticStress" = none then
      { s with catalogRequests := s.catalogRequests ++ [(svgName, locus)] }
    else s
  if (Obj.getProp s.sampleData "AbioticStress").isSome ∧ continueForward = true then
    { requested with
      queries := requested.queries ++ retrieveSampleData s.sampleData svgName locus }
  else requested

/-- The method `generateSVG`, for the fields of `AppState`: the name is
pushed on `clickList` unless it is there, `loadSampleData` runs, and
`updateChecker` sets its first timer. -/
def generateSVG (s : AppState) (svgName locus desiredDOMid : String) : AppState :=
  let pushed : AppState :=
    { s with
      clickList := if s.clickList.contains svgName then s.clickList
                   else s.clickList ++ [svgName],
      desiredDOMid := desiredDOMid }
  let loaded := loadSampleData pushed svgName locus true
  { loaded with timers := loaded.timers ++ [(svgName, locus, 0)] }

/-- The handler of the catalog request `i` when the request is done: with
status 200 the reply becomes `sampleData` and `retrieveSampleData` runs. -/
def catalogReply (catalog : Obj SampleInfo) (s : AppState) (i status : Nat) : AppState :=
  match s.catalogRequests.get? i with
  | none => s
  | some (svgName, locus) =>
      if status = 200 then
        { s with
          catalogRequests := s.catalogRequests.eraseIdx i,
          sampleData := catalog,
          queries := s.queries ++ retrieveSampleData catalog svgName locus }
      else { s with catalogRequests := s.catalogRequests.eraseIdx i }

/-- The handler of the query `i` when the query is done. -/
def queryReply (s : AppState) (i status : Nat) (response : List ResponsePair) : AppState :=
  match s.queries.get? i with
  | none => s
  | some call =>
      { s with
        queries := s.queries.eraseIdx i,
        eFPObjects := onReadyStateChange s.eFPObjects call 4 status response }

/-- The table after the handler of a query has run on a reply with status
200 whose body is no array (`xhr.response` is `null`): the diagram and its
field `sample` have been created when missing, then `response.length`
throws. -/
def onMalformedResponse (eFPObjects : Obj EFPEntry) (call : PlantEFPCall) : Obj EFPEntry :=
  let entry := (Obj.getProp eFPObjects call.svg).getD { sample := none, db := none }
  Obj.setProp eFPObjects call.svg { entry with sample := some (entry.sample.getD []) }

/-- The handler of the query `i` on a reply with status 200 and no array. -/
def queryReplyMalformed (s : AppState) (i : Nat) : AppState :=
  match s.queries.get? i with
  | none => s
  | some call =>
      { s with
        queries := s.queries.eraseIdx i,
        eFPObjects := onMalformedResponse s.eFPObjects call }

/-- The callback of the timer `i` of `updateChecker`: when the readiness test
holds `addSVGtoDOM` is called, otherwise `updateChecker` is called with the
next iteration and sets a timer while that iteration is below 200. -/
def timerFires (s : AppState) (i : Nat) : AppState :=
  match s.timers.get? i with
  | none => s
  | some (svgName, locus, iteration) =>
      if readinessCheck s.eFPObjects s.clickList then
        { s with timers := s.timers.eraseIdx i, applied := s.applied ++ [(svgName, locus)] }
      else if iteration + 1 < 200 then
        { s with timers := s.timers.set i (svgName, locus, iteration + 1) }
      else { s with timers := s.timers.eraseIdx i }

/-- What can happen next: a call of `generateSVG`, the completion of a
catalog request or of a query, or a timer of `updateChecker`. -/
inductive Event where
  | generate (svgName locus desiredDOMid : String)
  | catalogDone (i status : Nat)
  | queryDone (i status : Nat) (response : List ResponsePair)
  | queryMalformed (i : Nat)
  | timer (i : Nat)

/-- One step of the application; `catalog` is the catalog document the
server holds. -/
def step (catalog : Obj SampleInfo) (s : AppState) : Event → AppState
  | Event.generate svgName locus desiredDOMid => generateSVG s svgName locus desiredDOMid
  | Event.catalogDone i status => catalogReply catalog s i status
  | Event.queryDone i status response => queryReply s i status response
  | Event.queryMalformed i => queryReplyMalformed s i
  | Event.timer i => timerFires s i

/-- The state after a sequence of events. -/
def run (catalog : Obj SampleInfo) (s : AppState) (events : List Event) : AppState :=
  events.foldl (step catalog) s

/-! ## Statements about the request history -/

/-- What holds in every state the application reaches with the catalog
document `catalog`: the names of `clickList` and the keys of `eFPObjects`
are distinct, `sampleData` is empty or the catalog, and every key of
`eFPObjects`, like the diagram of every pending query, is a key of the
catalog and the name, without `.svg`, of a request of `clickList`; every
pending catalog request belongs to a request of `clickList`. -/
def AppInvariant (catalog : Obj SampleInfo) (s : AppState) : Prop :=
  s.clickList.Nodup ∧
  (Obj.keys s.eFPObjects).Nodup ∧
  (s.sampleData = [] ∨ s.sampleData = catalog) ∧
  (∀ k ∈ Obj.keys s.eFPObjects,
    k ∈ Obj.keys catalog ∧ ∃ n ∈ s.clickList, stripSvgSuffix n = k) ∧
  (∀ call ∈ s.queries,
    call.svg ∈ Obj.keys catalog ∧ ∃ n ∈ s.clickList, stripSvgSuffix n = call.svg) ∧
  (∀ q ∈ s.catalogRequests, q.1 ∈ s.clickList)

/-- The red, green and blue components of a colour `#rrggbb`. -/
def colourComponents (colour : String) : Option (Nat × Nat × Nat) :=
  match colour.data with
  | ['#', r1, r2, g1, g2, b1, b2] =>
      match radixValue 16 [r1, r2] 0, radixValue 16 [g1, g2] 0, radixValue 16 [b1, b2] 0 with
      | some r, some g, some b => some (r, g, b)
      | _, _, _ => none
  | _ => none

/-! ## Lemmas on objects -/

theorem Obj.getProp_setProp_same {α : Type} (o : Obj α) (k : String) (v : α) :
    Obj.getProp (Obj.setProp o k v) k = some v := by
  induction o with
  | nil => simp [Obj.setProp, Obj.getProp]
  | cons p rest ih =>
      obtain ⟨k', v'⟩ := p
      by_cases h : k' = k
      · simp [Obj.setProp, Obj.getProp, h]
      · simp [Obj.setProp, Obj.getProp, h, ih]

theorem Obj.getProp_setProp_ne {α : Type} (o : Obj α) (k k' : String) (v : α)
    (hne : k' ≠ k) : Obj.getProp (Obj.setProp o k v) k' = Obj.getProp o k' := by
  induction o with
  | nil =>
      have h : ¬ k = k' := fun h => hne h.symm
      simp [Obj.setProp, Obj.getProp, h]
  | cons p rest ih =>
      obtain ⟨k₁, v₁⟩ := p
      by_cases h : k₁ = k
      · subst h
        have h' : ¬ k₁ = k' := fun h => hne h.symm
        simp [Obj.setProp, Obj.getProp, h']
      · by_cases h₂ : k₁ = k'
        · subst h₂
          simp [Obj.setProp, Obj.getProp, h]
        · simp [Obj.setProp, Obj.getProp, h, h₂, ih]

theorem Obj.getProp_isSome_of_mem_keys {α : Type} (o : Obj α) (k : String)
    (h : k ∈ Obj.keys o) : ∃ v, Obj.getProp o k = some v := by
  induction o with
  | nil => simp [Obj.keys] at h
  | cons p rest ih =>
      obtain ⟨k', v'⟩ := p
      by_cases hk : k' = k
      · exact ⟨v', by simp [Obj.getProp, hk]⟩
      · have hmem : k ∈ Obj.keys rest := by
          simp only [Obj.keys, List.map_cons, List.mem_cons] at h
          rcases h with h | h
          · exact absurd h.symm hk
          · exact h
        obtain ⟨v, hv⟩ := ih hmem
        exact ⟨v, by simp [Obj.getProp, hk, hv]⟩

theorem Obj.mem_keys_of_getProp {α : Type} (o : Obj α) (k : String) (v : α)
    (h : Obj.getProp o k = some v) : k ∈ Obj.keys o := by
  induction o with
  | nil => simp [Obj.getProp] at h
  | cons p rest ih =>
      obtain ⟨k', v'⟩ := p
      by_cases hk : k' = k
      · simp [Obj.keys, hk]
      · simp only [Obj.getProp, hk, if_false] at h
        have := ih h
        simp only [Obj.keys] at this
        simp [Obj.keys, this]

/-! ## Lemmas on the response handler -/

theorem valueAt_recordValue_same (sample : SampleTable) (r n l : String) (v : JSVal) :
    valueAt (recordValue sample r n l v) r n l = some v := by
  simp [valueAt, recordValue, Obj.getProp_setProp_same]

theorem getProp_recordValue_ne (sample : SampleTable) (r r' n l : String) (v : JSVal)
    (hne : r' ≠ r) :
    Obj.getProp (recordValue sample r n l v) r' = Obj.getProp sample r' := by
  simp [recordValue, Obj.getProp_setProp_ne _ _ _ _ hne]

theorem valueAt_recordValue_keep (sample : SampleTable) (r r' n l : String) (v : JSVal)
    (h : valueAt sample r' n l = some v) :
    valueAt (recordValue sample r n l v) r' n l = some v := by
  by_cases hr : r' = r
  · subst hr
    exact valueAt_recordValue_same sample r' n l v
  · simpa [valueAt, getProp_recordValue_ne sample r r' n l v hr] using h

theorem attributeStep_match (subs : Obj (List String)) (l n : String) (v : JSVal)
    (sample : SampleTable) (s : String) (ids : List String)
    (hget : Obj.getProp subs s = some ids) (hin : n ∈ ids) :
    attributeStep subs l n v sample s = recordValue sample s n l v := by
  simp [attributeStep, hget, hin]

theorem attributeStep_other (subs : Obj (List String)) (l n : String) (v : JSVal)
    (sample : SampleTable) (s : String)
    (hno : ∀ ids, Obj.getProp subs s = some ids → n ∉ ids) :
    attributeStep subs l n v sample s = sample := by
  unfold attributeStep
  cases hs : Obj.getProp subs s with
  | none => rfl
  | some ids => simp [hno ids hs]

theorem attributeStep_cases (subs : Obj (List String)) (l n : String) (v : JSVal)
    (sample : SampleTable) (s : String) :
    (attributeStep subs l n v sample s = recordValue sample s n l v ∧
        ∃ ids, Obj.getProp subs s = some ids ∧ n ∈ ids) ∨
      (attributeStep subs l n v sample s = sample ∧
        ∀ ids, Obj.getProp subs s = some ids → n ∉ ids) := by
  by_cases h : ∃ ids, Obj.getProp subs s = some ids ∧ n ∈ ids
  · obtain ⟨ids, hget, hin⟩ := h
    exact Or.inl ⟨attributeStep_match subs l n v sample s ids hget hin, ids, hget, hin⟩
  · have hno : ∀ ids, Obj.getProp subs s = some ids → n ∉ ids :=
      fun ids hget hin => h ⟨ids, hget, hin⟩
    exact Or.inr ⟨attributeStep_other subs l n v sample s hno, hno⟩

theorem valueAt_attributeName_keep (subs : Obj (List String)) (l n : String) (v : JSVal)
    (r : String) (regions : List String) (sample : SampleTable)
    (h : valueAt sample r n l = some v) :
    valueAt (attributeName subs l n v regions sample) r n l = some v := by
  induction regions generalizing sample with
  | nil => simpa [attributeName] using h
  | cons s rest ih =>
      simp only [attributeName, List.foldl_cons]
      apply ih
      rcases attributeStep_cases subs l n v sample s with ⟨hs, _⟩ | ⟨hs, _⟩
      · rw [hs]
        exact valueAt_recordValue_keep sample s r n l v h
      · rw [hs]
        exact h

theorem valueAt_attributeName_match (subs : Obj (List String)) (l n : String) (v : JSVal)
    (r : String) (ids : List String) (regions : List String) (sample : SampleTable)
    (hmem : r ∈ regions) (hget : Obj.getProp subs r = some ids) (hin : n ∈ ids) :
    valueAt (attributeName subs l n v regions sample) r n l = some v := by
  induction regions generalizing sample with
  | nil => simp at hmem
  | cons s rest ih =>
      by_cases hs : s = r
      · subst hs
        simp only [attributeName, List.foldl_cons]
        rw [attributeStep_match subs l n v sample s ids hget hin]
        exact valueAt_attributeName_keep subs l n v s rest _
          (valueAt_recordValue_same sample s n l v)
      · have hmem' : r ∈ rest := by
          rcases List.mem_cons.mp hmem with h | h
          · exact absurd h.symm hs
          · exact h
        simp only [attributeName, List.foldl_cons]
        exact ih _ hmem'

theorem getProp_attributeName_other (subs : Obj (List String)) (l n : String) (v : JSVal)
    (r : String) (regions : List String) (sample : SampleTable)
    (hno : ∀ ids, Obj.getProp subs r = some ids → n ∉ ids) :
    Obj.getProp (attributeName subs l n v regions sample) r = Obj.getProp sample r := by
  induction regions generalizing sample with
  | nil => simp [attributeName]
  | cons s rest ih =>
      simp only [attributeName, List.foldl_cons]
      have hrest := ih (attributeStep subs l n v sample s)
      simp only [attributeName] at hrest
      rw [hrest]
      rcases attributeStep_cases subs l n v sample s with ⟨hs, ids, hget, hin⟩ | ⟨hs, _⟩
      · rw [hs]
        have hne : r ≠ s := by
          intro h
          subst h
          exact hno ids hget hin
        exact getProp_recordValue_ne sample s r n l v hne
      · rw [hs]

theorem foldl_attributePair_append (subs : Obj (List String)) (l : String)
    (sample : SampleTable) (earlier : List ResponsePair) (pair : ResponsePair) :
    (earlier ++ [pair]).foldl (attributePair subs l) sample =
      attributePair subs l (earlier.foldl (attributePair subs l) sample) pair := by
  simp [List.foldl_append]

theorem getProp_foldl_attributePair_other (subs : Obj (List String)) (l r : String)
    (response : List ResponsePair) (sample : SampleTable)
    (hno : ∀ p ∈ response, ∀ ids, Obj.getProp subs r = some ids →
      escapeName (trim p.name) ∉ ids) :
    Obj.getProp (response.foldl (attributePair subs l) sample) r = Obj.getProp sample r := by
  induction response generalizing sample with
  | nil => rfl
  | cons p rest ih =>
      simp only [List.foldl_cons]
      rw [ih _ (fun q hq => hno q (List.mem_cons_of_mem _ hq))]
      exact getProp_attributeName_other subs l _ p.value r _ sample
        (hno p (List.mem_cons_self _ _))

theorem storedValue_onResponse (eFPObjects : Obj EFPEntry) (call : PlantEFPCall)
    (response : List ResponsePair) (r n l : String) :
    storedValue (onResponse eFPObjects call response) call.svg r n l =
      valueAt (response.foldl (attributePair call.sampleSubunits call.locus)
        (((Obj.getProp eFPObjects call.svg).getD { sample := none, db := none }).sample.getD []))
        r n l := by
  simp [storedValue, onResponse, Obj.getProp_setProp_same]

theorem storedValue_eq_valueAt_getD (eFPObjects : Obj EFPEntry) (svg r n l : String) :
    storedValue eFPObjects svg r n l =
      valueAt (((Obj.getProp eFPObjects svg).getD { sample := none, db := none }).sample.getD [])
        r n l := by
  unfold storedValue
  cases h : Obj.getProp eFPObjects svg with
  | none => simp [valueAt, Obj.getProp]
  | some e =>
      cases hs : e.sample with
      | none => simp [hs, valueAt, Obj.getProp]
      | some t => simp [hs]

/-! ## Attribution of a reply to regions -/

/-- C1, as stated, fails: with the catalog regions `A` and `B` both listing
the sample `S1`, the first region in key order whose list contains the
escaped name is `A`, and after the handler has run on the reply pair
`S1 ↦ "10"` the later region `B` holds the value too. -/
theorem callPlantEFP_later_region_also_records :
    (Obj.keys ([("A", ["S1"]), ("B", ["S1"])] : Obj (List String))).find?
        (fun region =>
          ((Obj.getProp ([("A", ["S1"]), ("B", ["S1"])] : Obj (List String)) region).getD []).contains
            (escapeName (trim "S1"))) = some "A" ∧
      storedValue
        (onReadyStateChange []
          { datasource := some "abiotic", locus := "AT1G00000", samples := ["S1", "S1"],
            svg := "leaf_diagram", sampleSubunits := [("A", ["S1"]), ("B", ["S1"])] }
          4 200 [{ name := "S1", value := JSVal.str "10" }])
        "leaf_diagram" "B" "S1" "AT1G00000" = some (JSVal.str "10") := by
  decide!

/-- C1, amended: the response handler of `callPlantEFP` records the value of
a reply pair under every catalog region whose sample list contains the
escaped name (not only the first one), and leaves a region whose list does
not contain it as it was. Here `r` is a catalog region with sample list
`ids`; in the first part the pair is the last one of the reply, in the
second the reply is the pair alone. -/
theorem callPlantEFP_records_under_every_matching_region
    (eFPObjects : Obj EFPEntry) (call : PlantEFPCall) (earlier : List ResponsePair)
    (pair : ResponsePair) (r : String) (ids : List String)
    (hget : Obj.getProp call.sampleSubunits r = some ids) :
    (escapeName (trim pair.name) ∈ ids →
      storedValue (onReadyStateChange eFPObjects call 4 200 (earlier ++ [pair]))
        call.svg r (escapeName (trim pair.name)) call.locus = some pair.value) ∧
    (escapeName (trim pair.name) ∉ ids →
      ∀ n l, storedValue (onReadyStateChange eFPObjects call 4 200 [pair]) call.svg r n l =
        storedValue eFPObjects call.svg r n l) := by
  constructor
  · intro hin
    have hready : onReadyStateChange eFPObjects call 4 200 (earlier ++ [pair]) =
        onResponse eFPObjects call (earlier ++ [pair]) := by
      simp [onReadyStateChange]
    rw [hready, storedValue_onResponse, foldl_attributePair_append]
    exact valueAt_attributeName_match call.sampleSubunits call.locus _ pair.value r ids _ _
      (Obj.mem_keys_of_getProp _ _ _ hget) hget hin
  · intro hout n l
    have hready : onReadyStateChange eFPObjects call 4 200 [pair] =
        onResponse eFPObjects call [pair] := by
      simp [onReadyStateChange]
    rw [hready, storedValue_onResponse, storedValue_eq_valueAt_getD eFPObjects]
    have hsame := getProp_foldl_attributePair_other call.sampleSubunits call.locus r [pair]
      (((Obj.getProp eFPObjects call.svg).getD { sample := none, db := none }).sample.getD [])
      (by
        intro p hp ids' hget'
        have hp' : p = pair := by simpa using hp
        subst hp'
        have hids : ids' = ids := by
          rw [hget] at hget'
          exact (Option.some.inj hget').symm
        rw [hids]
        exact hout)
    simp only [valueAt, hsame]

/-- Witness of C1, amended: with regions `A` and `B` both listing `S1`, the
later region `B` receives the value of the pair `S1 ↦ "10"`. -/
theorem callPlantEFP_records_under_every_matching_region_witness :
    Obj.getProp ([("A", ["S1"]), ("B", ["S1"])] : Obj (List String)) "B" = some ["S1"] ∧
    escapeName (trim "S1") ∈ ["S1"] ∧
    storedValue
      (onReadyStateChange []
        { datasource := some "abiotic", locus := "AT1G00000", samples := ["S1", "S1"],
          svg := "leaf_diagram", sampleSubunits := [("A", ["S1"]), ("B", ["S1"])] }
        4 200 ([] ++ [{ name := "S1", value := JSVal.str "10" }]))
      "leaf_diagram" "B" (escapeName (trim "S1")) "AT1G00000" = some (JSVal.str "10") :=
  ⟨by decide, by decide!,
    (callPlantEFP_records_under_every_matching_region []
      { datasource := some "abiotic", locus := "AT1G00000", samples := ["S1", "S1"],
        svg := "leaf_diagram", sampleSubunits := [("A", ["S1"]), ("B", ["S1"])] }
      [] { name := "S1", value := JSVal.str "10" } "B" ["S1"] (by decide)).1 (by decide!)⟩

/-! ## Lemmas on Numbers -/

theorem JSNum.add_fin (a b : ℚ) : JSNum.add (JSNum.fin a) (JSNum.fin b) = JSNum.fin (a + b) := rfl

theorem JSNum.sub_fin (a b : ℚ) : JSNum.sub (JSNum.fin a) (JSNum.fin b) = JSNum.fin (a - b) := by
  simp [JSNum.sub, JSNum.neg, JSNum.add, sub_eq_add_neg]

theorem JSNum.mul_fin (a b : ℚ) : JSNum.mul (JSNum.fin a) (JSNum.fin b) = JSNum.fin (a * b) := rfl

theorem JSNum.div_fin (a b : ℚ) (hb : b ≠ 0) :
    JSNum.div (JSNum.fin a) (JSNum.fin b) = JSNum.fin (a / b) := by
  simp [JSNum.div, hb]

theorem JSNum.div_zero_zero : JSNum.div (JSNum.fin 0) (JSNum.fin 0) = JSNum.nan := by
  simp [JSNum.div]

theorem JSNum.lt_fin (a b : ℚ) : JSNum.lt (JSNum.fin a) (JSNum.fin b) = decide (a < b) := rfl

theorem JSNum.gt_fin (a b : ℚ) : JSNum.gt (JSNum.fin a) (JSNum.fin b) = decide (b < a) := rfl

/-! ## Lemmas on the percentage -/

theorem numeratorOf_fin (a mn : ℚ) :
    numeratorOf (some (JSNum.fin a)) (some (JSNum.fin mn)) =
      JSNum.fin (if a - mn < 0 then 0 else a - mn) := by
  simp only [numeratorOf, operand, JSNum.sub_fin, JSNum.lt_fin]
  by_cases h : a - mn < 0 <;> simp [h]

/-! ## The percentage and its colour -/

/-- C2 fails on the code: when a region's average equals both
`svgMinAverage` and `svgMaxAverage` (every average identical, as with one
region), the percentage of `colourSVGs` is `0 / 0 * 100 = NaN`, which none
of the clamps replaces, and `percentageToColour` returns `undefined` for it.
Concretely the run over the single region `Leaf` with raw values `"10"` and
`"20"` does not throw and passes the colour `undefined` on. -/
theorem colourSVGs_degenerate_range_gives_undefined_colour :
    (∀ a : ℚ, percentageOf (some (JSNum.fin a)) (some (JSNum.fin a)) (some (JSNum.fin a)) =
      JSNum.nan) ∧
    percentageToColour JSNum.nan = none ∧
    (findMaxAndMin "leaf_diagram"
        { resetState with
          svgValues := [("Leaf", { RegionValues.empty with
            rawValues := some [JSVal.str "10", JSVal.str "20"] })] }
        ["Leaf"]).map (fun st => st.coloured) =
      some [{ whichSVG := "leaf_diagram", svgSubunit := "Leaf", colour := none,
              expressionLevel := "15.000", sampleSize := 2 }] := by
  refine ⟨?_, by decide!, by decide!⟩
  intro a
  unfold percentageOf
  rw [numeratorOf_fin]
  simp [operand, JSNum.sub_fin, JSNum.div_zero_zero, JSNum.mul, JSNum.gt, JSNum.lt]

/-- C3 fails on the code: a region without a numeric value has the average
`0 / 0 = NaN`, and for a `NaN` average the percentage of `colourSVGs` is
`NaN` whatever the two bounds are; no clamp replaces it and
`percentageToColour` returns `undefined` for it. The run over `Root` (raw
values `["1"]`), `Stem` (`["3"]`) and `Leaf` (`["x"]`) leaves
`svgMinAverage = 1 < 3 = svgMaxAverage`, colours `Root` (average
`svgMinAverage`) with `#ffff00` and `Stem` (average `svgMaxAverage`) with
`#ff0000`, and passes the colour `undefined` on for `Leaf`. An infinite bound
does the same: over `Root` (`["1"]`) and `Stem` (`["Infinity"]`) the region
`Stem`, whose average is `svgMaxAverage`, gets the percentage
`Infinity / Infinity * 100 = NaN` where the claim gives `100`, and the colour
`undefined`. -/
theorem colourSVGs_nan_average_escapes_clamp :
    (∀ mn mx : JSNum, percentageOf (some JSNum.nan) (some mn) (some mx) = JSNum.nan) ∧
    percentageToColour JSNum.nan = none ∧
    averageOf (numValuesOf (jsSort [JSVal.str "x"])) = JSNum.nan ∧
    (findMaxAndMin "leaf_diagram"
        { resetState with
          svgValues :=
            [("Root", { RegionValues.empty with rawValues := some [JSVal.str "1"] }),
             ("Stem", { RegionValues.empty with rawValues := some [JSVal.str "3"] }),
             ("Leaf", { RegionValues.empty with rawValues := some [JSVal.str "x"] })] }
        ["Root", "Stem", "Leaf"]).map
      (fun st => (st.svgMinAverage, st.svgMaxAverage, st.coloured)) =
      some (some (JSNum.fin 1), some (JSNum.fin 3),
        [{ whichSVG := "leaf_diagram", svgSubunit := "Root", colour := some "#ffff00",
           expressionLevel := "1.000", sampleSize := 1 },
         { whichSVG := "leaf_diagram", svgSubunit := "Stem", colour := some "#ff0000",
           expressionLevel := "3.000", sampleSize := 1 },
         { whichSVG := "leaf_diagram", svgSubunit := "Leaf", colour := none,
           expressionLevel := "NaN", sampleSize := 1 }]) ∧
    percentageOf (some JSNum.posInf) (some (JSNum.fin 1)) (some JSNum.posInf) = JSNum.nan ∧
    (findMaxAndMin "leaf_diagram"
        { resetState with
          svgValues :=
            [("Root", { RegionValues.empty with rawValues := some [JSVal.str "1"] }),
             ("Stem", { RegionValues.empty with
                rawValues := some [JSVal.str "Infinity"] })] }
        ["Root", "Stem"]).map
      (fun st => (st.svgMinAverage, st.svgMaxAverage, st.coloured)) =
      some (some (JSNum.fin 1), some JSNum.posInf,
        [{ whichSVG := "leaf_diagram", svgSubunit := "Root", colour := some "#ffff00",
           expressionLevel := "1.000", sampleSize := 1 },
         { whichSVG := "leaf_diagram", svgSubunit := "Stem", colour := none,
           expressionLevel := "Infinity", sampleSize := 1 }]) := by
  refine ⟨?_, by decide!, by decide!, by decide!, by decide!, by decide!⟩
  intro mn mx
  cases mn <;> cases mx <;> rfl

/-! ## The statistics of a region -/

/-- C4 fails on the code: the filter of `findMaxAndMin` keeps a value when
`isNaN(v)` is false, and `isNaN("")` and `isNaN(null)` are false (`Number`
gives `0` for both) while `parseFloat` gives `NaN` for them. The raw values
`["", "10"]` give the filtered sequence `[NaN, 10]` and the average `NaN`
(the claim gives `10`), and so do `[null, "10"]`; a non-numeric string and a
missing value are left out, and `["10", "20"]` gives `15`. -/
theorem findMaxAndMin_empty_string_enters_average :
    numValuesOf (jsSort [JSVal.str "", JSVal.str "10"]) = [JSNum.nan, JSNum.fin 10] ∧
    averageOf (numValuesOf (jsSort [JSVal.str "", JSVal.str "10"])) = JSNum.nan ∧
    ((findMaxAndMin "leaf_diagram"
        { resetState with
          svgValues := [("Leaf", { RegionValues.empty with
            rawValues := some [JSVal.str "", JSVal.str "10"] })] }
        ["Leaf"]).bind (fun st => Obj.getProp st.svgValues "Leaf")).bind
          (fun entry => entry.average) = some JSNum.nan ∧
    averageOf (numValuesOf (jsSort [JSVal.null, JSVal.str "10"])) = JSNum.nan ∧
    numValuesOf (jsSort [JSVal.str "x", JSVal.undefined, JSVal.str "10"]) = [JSNum.fin 10] ∧
    averageOf (numValuesOf (jsSort [JSVal.str "10", JSVal.str "20"])) = JSNum.fin 15 := by
  decide!

/-- C5 fails on the code: `sort()` orders the raw values as strings, so for
the single region with the numeric raw values `9` and `10` the sorted
sequence is `[10, 9]`, its last element is `9`, and `findMaxAndMin` leaves
`svgMax = 9` although the greatest raw value is `10`. -/
theorem findMaxAndMin_svgMax_not_greatest :
    jsSort [JSVal.num (JSNum.fin 9), JSVal.num (JSNum.fin 10)] =
      [JSVal.num (JSNum.fin 10), JSVal.num (JSNum.fin 9)] ∧
    (findMaxAndMin "leaf_diagram"
        { resetState with
          svgValues := [("Leaf", { RegionValues.empty with
            rawValues := some [JSVal.num (JSNum.fin 9), JSVal.num (JSNum.fin 10)] })] }
        ["Leaf"]).map (fun st => st.svgMax) = some (some (JSNum.fin 9)) ∧
    JSNum.lt (JSNum.fin 9) (JSNum.fin 10) = true := by
  decide!

/-! ## Lemmas on the loops -/

theorem forEachSubunit_invariant (step : SVGState → String → Option SVGState)
    (Inv : List String → SVGState → Prop) (regions : List String)
    (hstep : ∀ done r rest st, done ++ r :: rest = regions → Inv done st →
      ∃ st', step st r = some st' ∧ Inv (done ++ [r]) st') :
    ∀ rest done st, done ++ rest = regions → Inv done st →
      ∃ st', forEachSubunit step (some st) rest = some st' ∧ Inv regions st' := by
  intro rest
  induction rest with
  | nil =>
      intro done st hsplit hinv
      simp only [List.append_nil] at hsplit
      subst hsplit
      exact ⟨st, rfl, hinv⟩
  | cons r rest ih =>
      intro done st hsplit hinv
      obtain ⟨st1, h1, hinv1⟩ := hstep done r rest st hsplit hinv
      obtain ⟨st2, h2, hinv2⟩ := ih (done ++ [r]) st1 (by simpa using hsplit) hinv1
      exact ⟨st2, by simpa [forEachSubunit, h1] using h2, hinv2⟩

theorem numValuesOf_foldl (values : List JSVal) (acc : List JSNum) :
    values.foldl (fun numValues v =>
      if isNaN v = false then numValues ++ [parseFloat v] else numValues) acc =
      acc ++ (values.filter (fun v => !isNaN v)).map parseFloat := by
  induction values generalizing acc with
  | nil => simp
  | cons v rest ih =>
      simp only [List.foldl_cons]
      rw [ih]
      by_cases h : isNaN v = true
      · simp [h]
      · have h' : isNaN v = false := by simpa using h
        simp [h']

theorem numValuesOf_eq_filter_map (values : List JSVal) :
    numValuesOf values = (values.filter (fun v => !isNaN v)).map parseFloat := by
  simp [numValuesOf, numValuesOf_foldl]

theorem findMaxAndMinStep_spec (st : SVGState) (subunit : String) (entry : RegionValues)
    (raw : List JSVal) (hentry : Obj.getProp st.svgValues subunit = some entry)
    (hraw : entry.rawValues = some raw) :
    ∃ st', findMaxAndMinStep st subunit = some st' ∧
      st'.svgValues = Obj.setProp st.svgValues subunit
        { entry with rawValues := some (jsSort raw),
                     average := some (averageOf (numValuesOf (jsSort raw))) } ∧
      st'.svgMax = (match st.svgMax with
        | none => maxValueOf (numValuesOf (jsSort raw))
        | some cur =>
            if JSNum.gt (operand (maxValueOf (numValuesOf (jsSort raw)))) cur then
              maxValueOf (numValuesOf (jsSort raw))
            else some cur) ∧
      st'.svgMin = (match st.svgMin with
        | none => minValueOf (numValuesOf (jsSort raw))
        | some cur =>
            if JSNum.lt (operand (minValueOf (numValuesOf (jsSort raw)))) cur then
              minValueOf (numValuesOf (jsSort raw))
            else some cur) ∧
      (st'.svgMaxAverage, st'.svgMaxAverageSample) = (match st.svgMaxAverage with
        | none => (some (averageOf (numValuesOf (jsSort raw))), some subunit)
        | some cur =>
            if JSNum.gt (averageOf (numValuesOf (jsSort raw))) cur then
              (some (averageOf (numValuesOf (jsSort raw))), some subunit)
            else (some cur, st.svgMaxAverageSample)) ∧
      (st'.svgMinAverage, st'.svgMinAverageSample) = (match st.svgMinAverage with
        | none => (some (averageOf (numValuesOf (jsSort raw))), some subunit)
        | some cur =>
            if JSNum.lt (averageOf (numValuesOf (jsSort raw))) cur then
              (some (averageOf (numValuesOf (jsSort raw))), some subunit)
            else (some cur, st.svgMinAverageSample)) ∧
      st'.coloured = st.coloured ∧ st'.finishedColouring = st.finishedColouring := by
  simp only [findMaxAndMinStep, hentry, hraw]
  exact ⟨_, rfl, rfl, rfl, rfl, rfl, rfl, rfl, rfl⟩

/-! ## Lemmas on sorting -/

theorem sortInsert_perm (x : JSVal) (l : List JSVal) : (sortInsert x l).Perm (x :: l) := by
  induction l with
  | nil => simp [sortInsert]
  | cons y ys ih =>
      by_cases h : sortBefore y x = true
      · simp only [sortInsert, h, if_true]
        exact (List.Perm.cons y ih).trans (List.Perm.swap x y ys)
      · simp [sortInsert, h]

theorem jsSort_perm (l : List JSVal) : (jsSort l).Perm l := by
  induction l with
  | nil => simp [jsSort]
  | cons x xs ih =>
      simp only [jsSort]
      exact (sortInsert_perm x (jsSort xs)).trans (List.Perm.cons x ih)

theorem charsLt_asymm (a b : List Char) (h : charsLt a b = true) : charsLt b a = false := by
  induction a generalizing b with
  | nil =>
      cases b with
      | nil => simp [charsLt] at h
      | cons c cs => simp [charsLt]
  | cons x xs ih =>
      cases b with
      | nil => simp [charsLt] at h
      | cons c cs =>
          simp only [charsLt] at h ⊢
          by_cases h1 : x.toNat < c.toNat
          · have h2 : ¬ c.toNat < x.toNat := by omega
            simp [h1, h2]
          · by_cases h2 : c.toNat < x.toNat
            · simp [h1, h2] at h
            · simp only [h1, h2, if_false] at h ⊢
              exact ih cs h

theorem sortBefore_asymm (x y : JSVal) (h : sortBefore x y = true) : sortBefore y x = false := by
  cases x <;> cases y <;>
    first
    | exact charsLt_asymm _ _ h
    | rfl
    | exact absurd h (by simp [sortBefore])

theorem sortInsert_chain (x : JSVal) (l : List JSVal)
    (hl : List.Chain' (fun a b => sortBefore b a = false) l) :
    List.Chain' (fun a b => sortBefore b a = false) (sortInsert x l) := by
  induction l with
  | nil => simp [sortInsert]
  | cons y ys ih =>
      by_cases h : sortBefore y x = true
      · simp only [sortInsert, h, if_true]
        have hys : List.Chain' (fun a b => sortBefore b a = false) ys := hl.tail
        have hrec := ih hys
        cases ys with
        | nil =>
            simp only [sortInsert] at hrec ⊢
            exact List.Chain'.cons (sortBefore_asymm y x h) hrec
        | cons z zs =>
            by_cases hz : sortBefore z x = true
            · simp only [sortInsert, hz, if_true] at hrec ⊢
              have hyz := (List.chain'_cons.mp hl).1
              exact List.Chain'.cons hyz hrec
            · simp only [sortInsert, hz] at hrec ⊢
              exact List.Chain'.cons (sortBefore_asymm y x h) hrec
      · have h' : sortBefore y x = false := by simpa using h
        simp only [sortInsert, h']
        exact List.Chain'.cons h' hl

theorem jsSort_chain (l : List JSVal) :
    List.Chain' (fun a b => sortBefore b a = false) (jsSort l) := by
  induction l with
  | nil => simp [jsSort]
  | cons x xs ih => exact sortInsert_chain x _ ih

/-! ## The minimum of a region -/

/-- C6: the region minimum that `findMaxAndMin` compares against `svgMin`
is the element at index 1 of the sequence obtained by sorting the raw values
as strings (`jsSort`, a permutation of the raw values in which no element
goes strictly before its predecessor) and keeping the entries `v` with
`isNaN(v)` false, parsed by `parseFloat`: with `svgMin` still `undefined`
it becomes `svgMin`, otherwise it replaces `svgMin` when it is smaller. -/
theorem findMaxAndMin_region_minimum_is_index_one (st : SVGState) (subunit : String)
    (entry : RegionValues) (raw : List JSVal)
    (hentry : Obj.getProp st.svgValues subunit = some entry)
    (hraw : entry.rawValues = some raw) :
    (jsSort raw).Perm raw ∧
    List.Chain' (fun a b => sortBefore b a = false) (jsSort raw) ∧
    ∃ st', findMaxAndMinStep st subunit = some st' ∧
      st'.svgMin = (match st.svgMin with
        | none => (((jsSort raw).filter (fun v => !isNaN v)).map parseFloat).get? 1
        | some cur =>
            if JSNum.lt (operand
                ((((jsSort raw).filter (fun v => !isNaN v)).map parseFloat).get? 1)) cur then
              (((jsSort raw).filter (fun v => !isNaN v)).map parseFloat).get? 1
            else some cur) := by
  refine ⟨jsSort_perm raw, jsSort_chain raw, ?_⟩
  obtain ⟨st', hstep, _, _, hmin, _⟩ := findMaxAndMinStep_spec st subunit entry raw hentry hraw
  refine ⟨st', hstep, ?_⟩
  rw [hmin]
  simp only [minValueOf, numValuesOf_eq_filter_map]

/-- Witness of C6: the raw values `[5, 1, 3, "x", 2]` sort and filter to
`[1, 2, 3, 5]`, whose element at index 0 is `1`, and the region minimum that
becomes `svgMin` is `2`. -/
theorem findMaxAndMin_region_minimum_is_index_one_witness :
    ((jsSort [JSVal.num (JSNum.fin 5), JSVal.num (JSNum.fin 1), JSVal.num (JSNum.fin 3),
        JSVal.str "x", JSVal.num (JSNum.fin 2)]).filter (fun v => !isNaN v)).map parseFloat =
      [JSNum.fin 1, JSNum.fin 2, JSNum.fin 3, JSNum.fin 5] ∧
    ∃ st', findMaxAndMinStep
        { resetState with
          svgValues := [("Leaf", { RegionValues.empty with
            rawValues := some [JSVal.num (JSNum.fin 5), JSVal.num (JSNum.fin 1),
              JSVal.num (JSNum.fin 3), JSVal.str "x", JSVal.num (JSNum.fin 2)] })] }
        "Leaf" = some st' ∧
      st'.svgMin = some (JSNum.fin 2) := by
  refine ⟨by decide!, ?_⟩
  obtain ⟨_, _, st', hstep, hmin⟩ := findMaxAndMin_region_minimum_is_index_one
    { resetState with
      svgValues := [("Leaf", { RegionValues.empty with
        rawValues := some [JSVal.num (JSNum.fin 5), JSVal.num (JSNum.fin 1),
          JSVal.num (JSNum.fin 3), JSVal.str "x", JSVal.num (JSNum.fin 2)] })] }
    "Leaf"
    { RegionValues.empty with
        rawValues := some [JSVal.num (JSNum.fin 5), JSVal.num (JSNum.fin 1),
          JSVal.num (JSNum.fin 3), JSVal.str "x", JSVal.num (JSNum.fin 2)] }
    [JSVal.num (JSNum.fin 5), JSVal.num (JSNum.fin 1), JSVal.num (JSNum.fin 3),
      JSVal.str "x", JSVal.num (JSNum.fin 2)]
    (by decide) rfl
  refine ⟨st', hstep, ?_⟩
  rw [hmin]
  decide!

/-! ## Lemmas on the tracked averages -/

theorem maxAverageTracked_step (avg : String → ℚ) (done : List String) (r : String)
    (s s1 : SVGState)
    (hprev : (done = [] ∧ s.svgMaxAverage = none) ∨ MaxAverageTracked avg done s)
    (hnew : (s1.svgMaxAverage, s1.svgMaxAverageSample) = (match s.svgMaxAverage with
        | none => (some (JSNum.fin (avg r)), some r)
        | some cur =>
            if JSNum.gt (JSNum.fin (avg r)) cur then (some (JSNum.fin (avg r)), some r)
            else (some cur, s.svgMaxAverageSample))) :
    MaxAverageTracked avg (done ++ [r]) s1 := by
  rcases hprev with ⟨hdone, hnone⟩ | ⟨before, s0, after, hsplit, hsample, hmax, hall, hfirst⟩
  · rw [hnone] at hnew
    have h1 : s1.svgMaxAverage = some (JSNum.fin (avg r)) := congrArg Prod.fst hnew
    have h2 : s1.svgMaxAverageSample = some r := congrArg Prod.snd hnew
    subst hdone
    exact ⟨[], r, [], rfl, h2, h1, by simp, by simp⟩
  · rw [hmax] at hnew
    simp only [JSNum.gt_fin] at hnew
    by_cases hgt : avg s0 < avg r
    · simp only [hgt, decide_True, if_true] at hnew
      have h1 : s1.svgMaxAverage = some (JSNum.fin (avg r)) := congrArg Prod.fst hnew
      have h2 : s1.svgMaxAverageSample = some r := congrArg Prod.snd hnew
      refine ⟨done, r, [], rfl, h2, h1, ?_, ?_⟩
      · intro x hx
        rcases List.mem_append.mp hx with hx | hx
        · exact le_of_lt (lt_of_le_of_lt (hall x hx) hgt)
        · have : x = r := by simpa using hx
          rw [this]
      · intro x hx
        exact lt_of_le_of_lt (hall x hx) hgt
    · simp only [hgt, decide_False] at hnew
      have h1 : s1.svgMaxAverage = some (JSNum.fin (avg s0)) := congrArg Prod.fst hnew
      have h2 : s1.svgMaxAverageSample = s.svgMaxAverageSample := congrArg Prod.snd hnew
      refine ⟨before, s0, after ++ [r], by simp [hsplit], h2.trans hsample, h1, ?_, hfirst⟩
      intro x hx
      rcases List.mem_append.mp hx with hx | hx
      · exact hall x hx
      · have : x = r := by simpa using hx
        rw [this]
        exact not_lt.mp hgt

theorem minAverageTracked_step (avg : String → ℚ) (done : List String) (r : String)
    (s s1 : SVGState)
    (hprev : (done = [] ∧ s.svgMinAverage = none) ∨ MinAverageTracked avg done s)
    (hnew : (s1.svgMinAverage, s1.svgMinAverageSample) = (match s.svgMinAverage with
        | none => (some (JSNum.fin (avg r)), some r)
        | some cur =>
            if JSNum.lt (JSNum.fin (avg r)) cur then (some (JSNum.fin (avg r)), some r)
            else (some cur, s.svgMinAverageSample))) :
    MinAverageTracked avg (done ++ [r]) s1 := by
  rcases hprev with ⟨hdone, hnone⟩ | ⟨before, s0, after, hsplit, hsample, hmin, hall, hfirst⟩
  · rw [hnone] at hnew
    have h1 : s1.svgMinAverage = some (JSNum.fin (avg r)) := congrArg Prod.fst hnew
    have h2 : s1.svgMinAverageSample = some r := congrArg Prod.snd hnew
    subst hdone
    exact ⟨[], r, [], rfl, h2, h1, by simp, by simp⟩
  · rw [hmin] at hnew
    simp only [JSNum.lt_fin] at hnew
    by_cases hlt : avg r < avg s0
    · simp only [hlt, decide_True, if_true] at hnew
      have h1 : s1.svgMinAverage = some (JSNum.fin (avg r)) := congrArg Prod.fst hnew
      have h2 : s1.svgMinAverageSample = some r := congrArg Prod.snd hnew
      refine ⟨done, r, [], rfl, h2, h1, ?_, ?_⟩
      · intro x hx
        rcases List.mem_append.mp hx with hx | hx
        · exact le_of_lt (lt_of_lt_of_le hlt (hall x hx))
        · have : x = r := by simpa using hx
          rw [this]
      · intro x hx
        exact lt_of_lt_of_le hlt (hall x hx)
    · simp only [hlt, decide_False] at hnew
      have h1 : s1.svgMinAverage = some (JSNum.fin (avg s0)) := congrArg Prod.fst hnew
      have h2 : s1.svgMinAverageSample = s.svgMinAverageSample := congrArg Prod.snd hnew
      refine ⟨before, s0, after ++ [r], by simp [hsplit], h2.trans hsample, h1, ?_, hfirst⟩
      intro x hx
      rcases List.mem_append.mp hx with hx | hx
      · exact hall x hx
      · have : x = r := by simpa using hx
        rw [this]
        exact not_lt.mp hlt

theorem not_mem_done_of_nodup (done rest : List String) (r : String)
    (hnodup : (done ++ r :: rest).Nodup) : r ∉ done := by
  intro hmem
  have hdisj := (List.nodup_append.mp hnodup).2.2
  exact hdisj hmem (List.mem_cons_self r rest)

theorem findMaxAndMinLoop_run (st : SVGState) (regions : List String) (avg : String → ℚ)
    (hreset : st.svgMaxAverage = none ∧ st.svgMinAverage = none)
    (hnodup : regions.Nodup) (havg : HasAverages avg regions st) :
    ∃ st', findMaxAndMinLoop st regions = some st' ∧
      (∀ r ∈ regions, ∃ e raw, Obj.getProp st'.svgValues r = some e ∧
        e.rawValues = some raw ∧ e.average = some (JSNum.fin (avg r))) ∧
      ((regions = [] ∧ st'.svgMaxAverage = none) ∨ MaxAverageTracked avg regions st') ∧
      ((regions = [] ∧ st'.svgMinAverage = none) ∨ MinAverageTracked avg regions st') ∧
      st'.coloured = st.coloured := by
  have hloop := forEachSubunit_invariant findMaxAndMinStep
    (fun done s =>
      (∀ r ∈ regions, r ∉ done → Obj.getProp s.svgValues r = Obj.getProp st.svgValues r) ∧
      (∀ r ∈ done, ∃ e raw, Obj.getProp s.svgValues r = some e ∧
        e.rawValues = some raw ∧ e.average = some (JSNum.fin (avg r))) ∧
      ((done = [] ∧ s.svgMaxAverage = none) ∨ MaxAverageTracked avg done s) ∧
      ((done = [] ∧ s.svgMinAverage = none) ∨ MinAverageTracked avg done s) ∧
      s.coloured = st.coloured)
    regions
    (by
      intro done r rest s hsplit hinv
      obtain ⟨hpending, hfinished, hmaxT, hminT, hcol⟩ := hinv
      have hr : r ∈ regions := by
        rw [← hsplit]
        simp
      have hrdone : r ∉ done := by
        apply not_mem_done_of_nodup done rest r
        rw [hsplit]
        exact hnodup
      obtain ⟨entry, raw, hentry, hraw, haverage⟩ := havg r hr
      have hentry' : Obj.getProp s.svgValues r = some entry := by
        rw [hpending r hr hrdone]
        exact hentry
      obtain ⟨s1, hstep, hvalues, _, _, hmax1, hmin1, hcol1, _⟩ :=
        findMaxAndMinStep_spec s r entry raw hentry' hraw
      rw [haverage] at hvalues hmax1 hmin1
      refine ⟨s1, hstep, ?_, ?_, ?_, ?_, ?_⟩
      · intro r' hr' hnot
        have hne : r' ≠ r := by
          intro h
          apply hnot
          simp [h]
        have hnot' : r' ∉ done := fun h => hnot (List.mem_append_left _ h)
        rw [hvalues, Obj.getProp_setProp_ne _ _ _ _ hne]
        exact hpending r' hr' hnot'
      · intro r' hr'
        rcases List.mem_append.mp hr' with hmem | hmem
        · have hne : r' ≠ r := fun h => hrdone (h ▸ hmem)
          rw [hvalues, Obj.getProp_setProp_ne _ _ _ _ hne]
          exact hfinished r' hmem
        · have hrr : r' = r := by simpa using hmem
          rw [hrr, hvalues, Obj.getProp_setProp_same]
          exact ⟨_, _, rfl, rfl, rfl⟩
      · exact Or.inr (maxAverageTracked_step avg done r s s1 hmaxT hmax1)
      · exact Or.inr (minAverageTracked_step avg done r s s1 hminT hmin1)
      · exact hcol1.trans hcol)
  obtain ⟨st', hrun, hpending, hfinished, hmaxT, hminT, hcol⟩ :=
    hloop regions [] { st with svgMax := none, svgMin := none } (by simp)
      ⟨fun _ _ _ => rfl, by simp, Or.inl ⟨rfl, hreset.1⟩, Or.inl ⟨rfl, hreset.2⟩, rfl⟩
  exact ⟨st', hrun, hfinished, hmaxT, hminT, hcol⟩

/-! ## Lemmas on `colourSVGs` -/

theorem numeratorOf_of_le (a m : ℚ) (h : m ≤ a) :
    numeratorOf (some (JSNum.fin a)) (some (JSNum.fin m)) = JSNum.fin (a - m) := by
  rw [numeratorOf_fin]
  have : ¬ a - m < 0 := by linarith
  simp [this]

theorem expressionLevelOf_of_le (a m : ℚ) (h : m ≤ a) :
    expressionLevelOf (some (JSNum.fin a)) (some (JSNum.fin m)) = toFixed3 (JSNum.fin a) := by
  simp [expressionLevelOf, numeratorOf_of_le a m h, operand, JSNum.add_fin, parseFloat]

theorem colourSVGsStep_spec (whichSVG : String) (st : SVGState) (subunit : String)
    (entry : RegionValues) (raw : List JSVal)
    (hentry : Obj.getProp st.svgValues subunit = some entry)
    (hraw : entry.rawValues = some raw) :
    ∃ st', colourSVGsStep whichSVG st subunit = some st' ∧
      st'.svgValues = Obj.setProp st.svgValues subunit
        { entry with
          expressionLevel := some (expressionLevelOf entry.average st.svgMinAverage),
          sampleSize := some raw.length } ∧
      st'.coloured = st.coloured ++
        [{ whichSVG := whichSVG, svgSubunit := subunit,
           colour := percentageToColour
             (percentageOf entry.average st.svgMinAverage st.svgMaxAverage),
           expressionLevel := expressionLevelOf entry.average st.svgMinAverage,
           sampleSize := raw.length }] ∧
      st'.svgMax = st.svgMax ∧ st'.svgMin = st.svgMin ∧
      st'.svgMaxAverage = st.svgMaxAverage ∧
      st'.svgMaxAverageSample = st.svgMaxAverageSample ∧
      st'.svgMinAverage = st.svgMinAverage ∧
      st'.svgMinAverageSample = st.svgMinAverageSample := by
  simp only [colourSVGsStep, hentry, hraw]
  exact ⟨_, rfl, rfl, rfl, rfl, rfl, rfl, rfl, rfl, rfl⟩

theorem colourSVGs_run (whichSVG : String) (st : SVGState) (regions : List String)
    (avg : String → ℚ) (m : ℚ)
    (hmin : regions ≠ [] → st.svgMinAverage = some (JSNum.fin m))
    (hle : ∀ r ∈ regions, m ≤ avg r)
    (hentries : ∀ r ∈ regions, ∃ e raw, Obj.getProp st.svgValues r = some e ∧
      e.rawValues = some raw ∧ e.average = some (JSNum.fin (avg r))) :
    ∃ st', colourSVGs whichSVG st regions = some st' ∧
      (st'.svgMaxAverage = st.svgMaxAverage ∧
        st'.svgMaxAverageSample = st.svgMaxAverageSample ∧
        st'.svgMinAverage = st.svgMinAverage ∧
        st'.svgMinAverageSample = st.svgMinAverageSample) ∧
      (∀ r ∈ regions, ∃ e, Obj.getProp st'.svgValues r = some e ∧
        e.average = some (JSNum.fin (avg r)) ∧
        e.expressionLevel = some (toFixed3 (JSNum.fin (avg r)))) ∧
      st'.coloured.map (fun c => (c.svgSubunit, c.expressionLevel)) =
        st.coloured.map (fun c => (c.svgSubunit, c.expressionLevel)) ++
          regions.map (fun r => (r, toFixed3 (JSNum.fin (avg r)))) := by
  have hloop := forEachSubunit_invariant (colourSVGsStep whichSVG)
    (fun done s =>
      (s.svgMaxAverage = st.svgMaxAverage ∧
        s.svgMaxAverageSample = st.svgMaxAverageSample ∧
        s.svgMinAverage = st.svgMinAverage ∧
        s.svgMinAverageSample = st.svgMinAverageSample) ∧
      (∀ r ∈ regions, ∃ e raw, Obj.getProp s.svgValues r = some e ∧
        e.rawValues = some raw ∧ e.average = some (JSNum.fin (avg r)) ∧
        (r ∈ done → e.expressionLevel = some (toFixed3 (JSNum.fin (avg r))))) ∧
      s.coloured.map (fun c => (c.svgSubunit, c.expressionLevel)) =
        st.coloured.map (fun c => (c.svgSubunit, c.expressionLevel)) ++
          done.map (fun r => (r, toFixed3 (JSNum.fin (avg r)))))
    regions
    (by
      intro done r rest s hsplit hinv
      obtain ⟨hfields, hall, hlog⟩ := hinv
      have hr : r ∈ regions := by
        rw [← hsplit]
        simp
      have hne : regions ≠ [] := List.ne_nil_of_mem hr
      obtain ⟨entry, raw, hentry, hraw, haverage, _⟩ := hall r hr
      obtain ⟨s1, hstep, hvalues, hcol, _, _, h1, h2, h3, h4⟩ :=
        colourSVGsStep_spec whichSVG s r entry raw hentry hraw
      have hlevel : expressionLevelOf entry.average s.svgMinAverage =
          toFixed3 (JSNum.fin (avg r)) := by
        rw [haverage, hfields.2.2.1, hmin hne]
        exact expressionLevelOf_of_le (avg r) m (hle r hr)
      refine ⟨s1, hstep, ⟨h1.trans hfields.1, h2.trans hfields.2.1, h3.trans hfields.2.2.1,
        h4.trans hfields.2.2.2⟩, ?_, ?_⟩
      · intro r' hr'
        by_cases hrr : r' = r
        · rw [hrr, hvalues, Obj.getProp_setProp_same]
          exact ⟨_, raw, rfl, hraw, haverage, fun _ => by rw [hlevel]⟩
        · obtain ⟨e', raw', he', hraw', havg', hdone'⟩ := hall r' hr'
          rw [hvalues, Obj.getProp_setProp_ne _ _ _ _ hrr]
          refine ⟨e', raw', he', hraw', havg', ?_⟩
          intro hmem
          rcases List.mem_append.mp hmem with hmem | hmem
          · exact hdone' hmem
          · exact absurd (by simpa using hmem) hrr
      · rw [hcol, List.map_append, hlog, hlevel]
        simp)
  obtain ⟨st', hrun, hfields, hall, hlog⟩ :=
    hloop regions [] st (by simp)
      ⟨⟨rfl, rfl, rfl, rfl⟩,
        fun r hr => by
          obtain ⟨e, raw, he, hraw, havg'⟩ := hentries r hr
          exact ⟨e, raw, he, hraw, havg', fun h => absurd h (by simp)⟩,
        by simp⟩
  refine ⟨st', hrun, hfields, ?_, hlog⟩
  intro r hr
  obtain ⟨e, _, he, _, havg', hlevel⟩ := hall r hr
  exact ⟨e, he, havg', hlevel hr⟩

theorem findMaxAndMin_run (whichSVG : String) (st : SVGState) (regions : List String)
    (avg : String → ℚ)
    (hreset : st.svgMaxAverage = none ∧ st.svgMinAverage = none)
    (hnodup : regions.Nodup) (havg : HasAverages avg regions st) :
    ∃ st', findMaxAndMin whichSVG st regions = some st' ∧
      ((regions = [] ∧ st'.svgMaxAverage = none) ∨ MaxAverageTracked avg regions st') ∧
      ((regions = [] ∧ st'.svgMinAverage = none) ∨ MinAverageTracked avg regions st') ∧
      (∀ r ∈ regions, ∃ e, Obj.getProp st'.svgValues r = some e ∧
        e.average = some (JSNum.fin (avg r)) ∧
        e.expressionLevel = some (toFixed3 (JSNum.fin (avg r)))) ∧
      st'.coloured.map (fun c => (c.svgSubunit, c.expressionLevel)) =
        st.coloured.map (fun c => (c.svgSubunit, c.expressionLevel)) ++
          regions.map (fun r => (r, toFixed3 (JSNum.fin (avg r)))) := by
  obtain ⟨st1, hrun1, hentries, hmaxT, hminT, hcol⟩ :=
    findMaxAndMinLoop_run st regions avg hreset hnodup havg
  have hm : ∃ m : ℚ, (regions ≠ [] → st1.svgMinAverage = some (JSNum.fin m)) ∧
      ∀ r ∈ regions, m ≤ avg r := by
    rcases hminT with ⟨hnil, _⟩ | ⟨_, s0, _, _, _, hmin, hall, _⟩
    · exact ⟨0, fun h => absurd hnil h, by simp [hnil]⟩
    · exact ⟨avg s0, fun _ => hmin, hall⟩
  obtain ⟨m, hmin, hle⟩ := hm
  obtain ⟨st2, hrun2, hfields, hlevels, hlog⟩ :=
    colourSVGs_run whichSVG st1 regions avg m hmin hle hentries
  refine ⟨st2, by simp [findMaxAndMin, hrun1, hrun2], ?_, ?_, hlevels, by rw [hlog, hcol]⟩
  · rcases hmaxT with ⟨hnil, hnone⟩ | ⟨before, s0, after, hsplit, hsample, hmax, hall, hfirst⟩
    · exact Or.inl ⟨hnil, hfields.1.trans hnone⟩
    · exact Or.inr ⟨before, s0, after, hsplit, hfields.2.1.trans hsample,
        hfields.1.trans hmax, hall, hfirst⟩
  · rcases hminT with ⟨hnil, hnone⟩ | ⟨before, s0, after, hsplit, hsample, hmin', hall, hfirst⟩
    · exact Or.inl ⟨hnil, hfields.2.2.1.trans hnone⟩
    · exact Or.inr ⟨before, s0, after, hsplit, hfields.2.2.2.trans hsample,
        hfields.2.2.1.trans hmin', hall, hfirst⟩

/-! ## The tracked averages and the expression level -/

/-- C7: started with `svgMaxAverage` and `svgMinAverage` `undefined` (the
reset of `generateSVG`) on a non-empty list of distinct regions whose
averages are the Numbers `avg r`, `findMaxAndMin` returns, stores `avg r` as
the average of every region, and leaves `svgMaxAverage` the greatest and
`svgMinAverage` the least of the averages, with `svgMaxAverageSample` and
`svgMinAverageSample` the first region of the list whose average is that
extreme: every region before it has a strictly smaller (strictly greater)
average, so a later region with an equal average does not replace it. -/
theorem findMaxAndMin_average_extremes_first_wins (whichSVG : String) (st : SVGState)
    (regions : List String) (avg : String → ℚ)
    (hreset : st.svgMaxAverage = none ∧ st.svgMinAverage = none)
    (hne : regions ≠ []) (hnodup : regions.Nodup) (havg : HasAverages avg regions st) :
    ∃ st', findMaxAndMin whichSVG st regions = some st' ∧
      (∀ r ∈ regions, ∃ e, Obj.getProp st'.svgValues r = some e ∧
        e.average = some (JSNum.fin (avg r))) ∧
      MaxAverageTracked avg regions st' ∧ MinAverageTracked avg regions st' := by
  obtain ⟨st', hrun, hmaxT, hminT, hlevels, _⟩ :=
    findMaxAndMin_run whichSVG st regions avg hreset hnodup havg
  refine ⟨st', hrun, ?_, ?_, ?_⟩
  · intro r hr
    obtain ⟨e, he, haverage, _⟩ := hlevels r hr
    exact ⟨e, he, haverage⟩
  · rcases hmaxT with ⟨hnil, _⟩ | h
    · exact absurd hnil hne
    · exact h
  · rcases hminT with ⟨hnil, _⟩ | h
    · exact absurd hnil hne
    · exact h

/-- Witness of C7: the regions `Leaf` (average 15), `Root` (30), `Stem` (30)
and `Bud` (15) in this order; the tracked regions are `Root` and `Leaf`, the
first ones with the greatest and the least average. -/
theorem findMaxAndMin_average_extremes_first_wins_witness :
    (findMaxAndMin "leaf_diagram"
        { resetState with
          svgValues :=
            [("Leaf", { RegionValues.empty with
                rawValues := some [JSVal.str "10", JSVal.str "20"] }),
             ("Root", { RegionValues.empty with rawValues := some [JSVal.str "30"] }),
             ("Stem", { RegionValues.empty with
                rawValues := some [JSVal.str "20", JSVal.str "40"] }),
             ("Bud", { RegionValues.empty with rawValues := some [JSVal.str "15"] })] }
        ["Leaf", "Root", "Stem", "Bud"]).map
      (fun st => (st.svgMaxAverage, st.svgMaxAverageSample, st.svgMinAverage,
        st.svgMinAverageSample)) =
      some (some (JSNum.fin 30), some "Root", some (JSNum.fin 15), some "Leaf") ∧
    ∃ st', findMaxAndMin "leaf_diagram"
        { resetState with
          svgValues :=
            [("Leaf", { RegionValues.empty with
                rawValues := some [JSVal.str "10", JSVal.str "20"] }),
             ("Root", { RegionValues.empty with rawValues := some [JSVal.str "30"] }),
             ("Stem", { RegionValues.empty with
                rawValues := some [JSVal.str "20", JSVal.str "40"] }),
             ("Bud", { RegionValues.empty with rawValues := some [JSVal.str "15"] })] }
        ["Leaf", "Root", "Stem", "Bud"] = some st' ∧
      (∀ r ∈ ["Leaf", "Root", "Stem", "Bud"], ∃ e, Obj.getProp st'.svgValues r = some e ∧
        e.average = some (JSNum.fin
          ((fun r => if r = "Root" ∨ r = "Stem" then (30 : ℚ) else 15) r))) ∧
      MaxAverageTracked (fun r => if r = "Root" ∨ r = "Stem" then (30 : ℚ) else 15)
        ["Leaf", "Root", "Stem", "Bud"] st' ∧
      MinAverageTracked (fun r => if r = "Root" ∨ r = "Stem" then (30 : ℚ) else 15)
        ["Leaf", "Root", "Stem", "Bud"] st' := by
  refine ⟨by decide!, ?_⟩
  apply findMaxAndMin_average_extremes_first_wins
  · exact ⟨rfl, rfl⟩
  · simp
  · decide
  · intro r hr
    simp only [List.mem_cons, List.mem_singleton, List.not_mem_nil, or_false] at hr
    rcases hr with rfl | rfl | rfl | rfl
    · exact ⟨⟨some [JSVal.str "10", JSVal.str "20"], none, none, none⟩,
        [JSVal.str "10", JSVal.str "20"], by decide, rfl, by decide!⟩
    · exact ⟨⟨some [JSVal.str "30"], none, none, none⟩,
        [JSVal.str "30"], by decide, rfl, by decide!⟩
    · exact ⟨⟨some [JSVal.str "20", JSVal.str "40"], none, none, none⟩,
        [JSVal.str "20", JSVal.str "40"], by decide, rfl, by decide!⟩
    · exact ⟨⟨some [JSVal.str "15"], none, none, none⟩,
        [JSVal.str "15"], by decide, rfl, by decide!⟩

/-- C8 fails on the code: the first region's average becomes `svgMinAverage`
whatever it is, so when the first region has no numeric value
`svgMinAverage` is `NaN`, and `numerator + svgMinAverage` is `NaN` for every
region. The run over `Bud` (raw values `["x"]`), `Leaf` (`["0.125", "0.25"]`)
and `Root` (`["30"]`) stores the averages `NaN`, `0.1875` and `30` and the
expression level `"NaN"` for each of the three regions, where `toFixed(3)` of
the averages of `Leaf` and `Root` is `"0.188"` and `"30.000"`. With `Bud`
after the other two, the same values give `Leaf` and `Root` these two
expression levels. -/
theorem colourSVGs_nan_first_average_spoils_expressionLevel :
    (∀ a : JSNum, expressionLevelOf (some a) (some JSNum.nan) = "NaN") ∧
    (findMaxAndMin "leaf_diagram"
        { resetState with
          svgValues :=
            [("Bud", { RegionValues.empty with rawValues := some [JSVal.str "x"] }),
             ("Leaf", { RegionValues.empty with
                rawValues := some [JSVal.str "0.125", JSVal.str "0.25"] }),
             ("Root", { RegionValues.empty with rawValues := some [JSVal.str "30"] })] }
        ["Bud", "Leaf", "Root"]).map
      (fun st => st.svgMinAverage) =
      some (some JSNum.nan) ∧
    (findMaxAndMin "leaf_diagram"
        { resetState with
          svgValues :=
            [("Bud", { RegionValues.empty with rawValues := some [JSVal.str "x"] }),
             ("Leaf", { RegionValues.empty with
                rawValues := some [JSVal.str "0.125", JSVal.str "0.25"] }),
             ("Root", { RegionValues.empty with rawValues := some [JSVal.str "30"] })] }
        ["Bud", "Leaf", "Root"]).map
      (fun st => st.svgValues.map (fun entry => (entry.1, entry.2.average))) =
      some [("Bud", some JSNum.nan), ("Leaf", some (JSNum.fin (3 / 16))),
        ("Root", some (JSNum.fin 30))] ∧
    (findMaxAndMin "leaf_diagram"
        { resetState with
          svgValues :=
            [("Bud", { RegionValues.empty with rawValues := some [JSVal.str "x"] }),
             ("Leaf", { RegionValues.empty with
                rawValues := some [JSVal.str "0.125", JSVal.str "0.25"] }),
             ("Root", { RegionValues.empty with rawValues := some [JSVal.str "30"] })] }
        ["Bud", "Leaf", "Root"]).map
      (fun st => st.svgValues.map (fun entry => (entry.1, entry.2.expressionLevel))) =
      some [("Bud", some "NaN"), ("Leaf", some "NaN"), ("Root", some "NaN")] ∧
    (findMaxAndMin "leaf_diagram"
        { resetState with
          svgValues :=
            [("Bud", { RegionValues.empty with rawValues := some [JSVal.str "x"] }),
             ("Leaf", { RegionValues.empty with
                rawValues := some [JSVal.str "0.125", JSVal.str "0.25"] }),
             ("Root", { RegionValues.empty with rawValues := some [JSVal.str "30"] })] }
        ["Bud", "Leaf", "Root"]).map
      (fun st => st.coloured.map (fun c => (c.svgSubunit, c.expressionLevel))) =
      some [("Bud", "NaN"), ("Leaf", "NaN"), ("Root", "NaN")] ∧
    toFixed3 (JSNum.fin (3 / 16)) = "0.188" ∧
    toFixed3 (JSNum.fin 30) = "30.000" ∧
    (findMaxAndMin "leaf_diagram"
        { resetState with
          svgValues :=
            [("Bud", { RegionValues.empty with rawValues := some [JSVal.str "x"] }),
             ("Leaf", { RegionValues.empty with
                rawValues := some [JSVal.str "0.125", JSVal.str "0.25"] }),
             ("Root", { RegionValues.empty with rawValues := some [JSVal.str "30"] })] }
        ["Leaf", "Root", "Bud"]).map
      (fun st => st.svgMinAverage) =
      some (some (JSNum.fin (3 / 16))) ∧
    (findMaxAndMin "leaf_diagram"
        { resetState with
          svgValues :=
            [("Bud", { RegionValues.empty with rawValues := some [JSVal.str "x"] }),
             ("Leaf", { RegionValues.empty with
                rawValues := some [JSVal.str "0.125", JSVal.str "0.25"] }),
             ("Root", { RegionValues.empty with rawValues := some [JSVal.str "30"] })] }
        ["Leaf", "Root", "Bud"]).map
      (fun st => st.svgValues.map (fun entry => (entry.1, entry.2.average))) =
      some [("Bud", some JSNum.nan), ("Leaf", some (JSNum.fin (3 / 16))),
        ("Root", some (JSNum.fin 30))] ∧
    (findMaxAndMin "leaf_diagram"
        { resetState with
          svgValues :=
            [("Bud", { RegionValues.empty with rawValues := some [JSVal.str "x"] }),
             ("Leaf", { RegionValues.empty with
                rawValues := some [JSVal.str "0.125", JSVal.str "0.25"] }),
             ("Root", { RegionValues.empty with rawValues := some [JSVal.str "30"] })] }
        ["Leaf", "Root", "Bud"]).map
      (fun st => st.svgValues.map (fun entry => (entry.1, entry.2.expressionLevel))) =
      some [("Bud", some "NaN"), ("Leaf", some "0.188"), ("Root", some "30.000")] ∧
    (findMaxAndMin "leaf_diagram"
        { resetState with
          svgValues :=
            [("Bud", { RegionValues.empty with rawValues := some [JSVal.str "x"] }),
             ("Leaf", { RegionValues.empty with
                rawValues := some [JSVal.str "0.125", JSVal.str "0.25"] }),
             ("Root", { RegionValues.empty with rawValues := some [JSVal.str "30"] })] }
        ["Leaf", "Root", "Bud"]).map
      (fun st => st.coloured.map (fun c => (c.svgSubunit, c.expressionLevel))) =
      some [("Leaf", "0.188"), ("Root", "30.000"), ("Bud", "NaN")] := by
  refine ⟨?_, by decide!, by decide!, by decide!, by decide!, by decide!, by decide!,
    by decide!, by decide!, by decide!, by decide!⟩
  intro a
  cases a <;> rfl

/-! ## The query of a diagram without a data source -/

theorem createSVGValues_empty_sample (eFPObjects : Obj EFPEntry) (st : SVGState)
    (whichSVG locus : String) (db : Option String)
    (hget : Obj.getProp eFPObjects whichSVG = some { sample := some [], db := db }) :
    createSVGValues eFPObjects st whichSVG locus =
      some { st with svgMax := none, svgMin := none } := by
  simp [createSVGValues, hget, Obj.keys, findMaxAndMin, findMaxAndMinLoop, findMaxAndMinFrom,
    colourSVGs, colourSVGsFrom, forEachSubunit]

/-- C9, as stated, fails: for a catalog whose entry `nodb` has no `db`
field, `retrieveSampleData` calls `callPlantEFP` once, and the query
`datasource=undefined`, `samples=[]` is sent. -/
theorem retrieveSampleData_without_db_still_calls :
    (retrieveSampleData [("nodb", { db := none, sample := [("Leaf", ["S1", "S2"])] })]
      "nodb" "AT1G00000").length = 1 ∧
    (retrieveSampleData [("nodb", { db := none, sample := [("Leaf", ["S1", "S2"])] })]
      "nodb" "AT1G00000").map callPlantEFP =
      ["https://bar.utoronto.ca/~asullivan/webservices/plantefp.cgi?datasource=undefined&id=AT1G00000&samples=[]"] := by
  decide!

/-- C9, amended: for every catalog and every diagram name whose catalog entry
has no `db` field, `retrieveSampleData` raises no error and calls
`callPlantEFP` exactly once, with the data source `undefined` and an empty
list of sample IDs, so that one query with `datasource=undefined` and
`samples=[]` is sent; when the reply to it is empty and nothing was stored
for the diagram before, no region is recorded and `createSVGValues` colours
no region. -/
theorem retrieveSampleData_without_db (sampleData : Obj SampleInfo) (svgName locus : String)
    (info : SampleInfo)
    (hget : Obj.getProp sampleData (stripSvgSuffix svgName) = some info)
    (hdb : info.db = none) :
    retrieveSampleData sampleData svgName locus =
      [{ datasource := none, locus := locus, samples := [], svg := stripSvgSuffix svgName,
         sampleSubunits := info.sample }] ∧
    (retrieveSampleData sampleData svgName locus).map callPlantEFP =
      ["https://bar.utoronto.ca/~asullivan/webservices/plantefp.cgi?datasource=undefined&id=" ++
        locus ++ "&samples=[]"] ∧
    ∀ (eFPObjects : Obj EFPEntry) (st : SVGState),
      Obj.getProp eFPObjects (stripSvgSuffix svgName) = none →
      ∀ call ∈ retrieveSampleData sampleData svgName locus,
        (createSVGValues (onReadyStateChange eFPObjects call 4 200 []) st
          (stripSvgSuffix svgName) locus).map (fun st' => st'.coloured) = some st.coloured := by
  have hmem : (Obj.keys sampleData).contains (stripSvgSuffix svgName) = true := by
    simpa using Obj.mem_keys_of_getProp sampleData _ info hget
  have hcalls : retrieveSampleData sampleData svgName locus =
      [{ datasource := none, locus := locus, samples := [], svg := stripSvgSuffix svgName,
         sampleSubunits := info.sample }] := by
    simp only [retrieveSampleData, hmem, if_true, hget, hdb]
  refine ⟨hcalls, ?_, ?_⟩
  · rw [hcalls]
    simp only [List.map_cons, List.map_nil, callPlantEFP, datasourceText, samplesParam,
      samplesText]
    simp [String.append_assoc]
  · intro eFPObjects st hnone call hcall
    rw [hcalls, List.mem_singleton] at hcall
    have hstored : Obj.getProp (onReadyStateChange eFPObjects call 4 200 [])
        (stripSvgSuffix svgName) = some { sample := some [], db := none } := by
      rw [hcall]
      simp [onReadyStateChange, onResponse, hnone, Obj.getProp_setProp_same]
    rw [createSVGValues_empty_sample _ st _ locus none hstored]
    rfl

/-- Witness of C9, amended: the catalog entry `nodb` without a `db` field. -/
theorem retrieveSampleData_without_db_witness :
    Obj.getProp ([("nodb", { db := none, sample := [("Leaf", ["S1", "S2"])] })] : Obj SampleInfo)
      (stripSvgSuffix "nodb.svg") =
      some { db := none, sample := [("Leaf", ["S1", "S2"])] } ∧
    retrieveSampleData [("nodb", { db := none, sample := [("Leaf", ["S1", "S2"])] })]
      "nodb.svg" "AT1G00000" =
      [{ datasource := none, locus := "AT1G00000", samples := [],
         svg := stripSvgSuffix "nodb.svg", sampleSubunits := [("Leaf", ["S1", "S2"])] }] :=
  ⟨by decide!,
    (retrieveSampleData_without_db
      [("nodb", { db := none, sample := [("Leaf", ["S1", "S2"])] })] "nodb.svg" "AT1G00000"
      { db := none, sample := [("Leaf", ["S1", "S2"])] } (by decide!) rfl).1⟩

/-! ## The `samples` parameter of the query -/

theorem intercalate_go_append (sep a b : String) (l : List String) :
    String.intercalate.go (a ++ b) sep l = a ++ String.intercalate.go b sep l := by
  induction l generalizing b with
  | nil => simp [String.intercalate.go]
  | cons x xs ih =>
      simp only [String.intercalate.go]
      rw [String.append_assoc, String.append_assoc, ← String.append_assoc b sep x]
      exact ih (b ++ sep ++ x)

theorem intercalate_cons_cons (sep a b : String) (l : List String) :
    String.intercalate sep (a :: b :: l) = a ++ sep ++ String.intercalate sep (b :: l) := by
  simp only [String.intercalate, String.intercalate.go]
  exact intercalate_go_append sep (a ++ sep) b l

theorem samplesText_eq_intercalate (samples : List String) :
    samplesText samples =
      String.intercalate "," (samples.map (fun s => "\"" ++ s ++ "\"")) := by
  induction samples with
  | nil => rfl
  | cons s rest ih =>
      cases rest with
      | nil => rfl
      | cons t rest' =>
          have hstep : samplesText (s :: t :: rest') =
              "\"" ++ s ++ "\"" ++ "," ++ samplesText (t :: rest') := rfl
          rw [hstep, ih]
          simp only [List.map_cons]
          rw [intercalate_cons_cons]

theorem space_mem_samplesText (samples : List String) :
    ' ' ∈ (samplesText samples).data ↔ ∃ s ∈ samples, ' ' ∈ s.data := by
  induction samples with
  | nil => simp [samplesText]
  | cons s rest ih =>
      cases rest with
      | nil => simp [samplesText, String.data_append]
      | cons t rest' =>
          simp only [samplesText, String.data_append, List.mem_append, ih]
          simp

theorem space_not_mem_replaceSpace (cs : List Char) : ' ' ∉ replaceSpace cs := by
  induction cs with
  | nil => simp [replaceSpace]
  | cons c rest ih =>
      simp only [replaceSpace, List.mem_cons, not_or]
      refine ⟨?_, ih⟩
      by_cases h : c = ' '
      · simp [h]
      · simp only [h, if_false]
        exact fun h' => h h'.symm

theorem mem_of_mem_trimChars (c : Char) (cs : List Char) (h : c ∈ trimChars cs) : c ∈ cs := by
  unfold trimChars trimStartChars at h
  have h1 := List.mem_reverse.mp h
  have h2 := (List.dropWhile_sublist isStrWhiteSpaceChar).subset h1
  have h3 := List.mem_reverse.mp h2
  exact (List.dropWhile_sublist isStrWhiteSpaceChar).subset h3

theorem space_not_mem_escapeName (name : String) : ' ' ∉ (escapeName name).data := by
  intro h
  exact space_not_mem_replaceSpace _ (mem_of_mem_trimChars _ _ h)

/-- C10, as stated, fails: for the sample ID `a b` the `samples` parameter
of the URL is `["a b"]`, with the space of the ID, while the escaped form of
the ID is `a+b`; and for the ID `a+b` the parameter is `["a+b"]` while
the escaped form is `a%2Bb`. -/
theorem callPlantEFP_sends_sample_ids_unescaped :
    callPlantEFP { datasource := some "abiotic", locus := "AT1G00000", samples := ["a b"],
                   svg := "leaf_diagram", sampleSubunits := [("Leaf", ["a b"])] } =
      "https://bar.utoronto.ca/~asullivan/webservices/plantefp.cgi?datasource=abiotic&id=AT1G00000&samples=[\"a b\"]" ∧
    escapeName "a b" = "a+b" ∧
    samplesParam ["a+b"] = "[\"a+b\"]" ∧
    escapeName "a+b" = "a%2Bb" := by
  decide!

/-- C10, amended: the URL built by `callPlantEFP` ends with the `samples`
parameter, which is `[`, the sample IDs each between double quotes and
otherwise unchanged (the URL building applies no escape), separated by
commas, and `]`; it contains a space exactly when one of the sample IDs
does. The escape (`+` to `%2B` first, then space to `+`) is applied by the
response handler only, and an escaped name has no space, so IDs stored in
escaped form put no space in the parameter. -/
theorem callPlantEFP_samples_parameter_verbatim (call : PlantEFPCall) :
    callPlantEFP call =
      "https://bar.utoronto.ca/~asullivan/webservices/plantefp.cgi?" ++
      "datasource=" ++ datasourceText call.datasource ++ "&" ++
      "id=" ++ call.locus ++ "&" ++
      "samples=" ++ samplesParam call.samples ∧
    samplesParam call.samples =
      "[" ++ String.intercalate "," (call.samples.map (fun s => "\"" ++ s ++ "\"")) ++ "]" ∧
    (' ' ∈ (samplesParam call.samples).data ↔ ∃ s ∈ call.samples, ' ' ∈ s.data) ∧
    (∀ name : String, ' ' ∉ (escapeName name).data) ∧
    ((∀ s ∈ call.samples, ∃ name : String, s = escapeName name) →
      ' ' ∉ (samplesParam call.samples).data) := by
  have hspace : ' ' ∈ (samplesParam call.samples).data ↔ ∃ s ∈ call.samples, ' ' ∈ s.data := by
    simp only [samplesParam, String.data_append, List.mem_append, space_mem_samplesText]
    simp
  refine ⟨rfl, ?_, hspace, space_not_mem_escapeName, ?_⟩
  · simp [samplesParam, samplesText_eq_intercalate]
  · intro hall hmem
    obtain ⟨s, hs, hin⟩ := hspace.mp hmem
    obtain ⟨name, hname⟩ := hall s hs
    rw [hname] at hin
    exact space_not_mem_escapeName name hin

/-- Witness of C10, amended: the sample IDs `a+b` and `S1`, the escaped forms
of the names `a b` and `S1`, put no space in the parameter. -/
theorem callPlantEFP_samples_parameter_verbatim_witness :
    samplesParam ["a+b", "S1"] = "[\"a+b\",\"S1\"]" ∧
    ' ' ∉ (samplesParam ["a+b", "S1"]).data :=
  ⟨by decide!,
    (callPlantEFP_samples_parameter_verbatim
      { datasource := some "abiotic", locus := "AT1G00000", samples := ["a+b", "S1"],
        svg := "leaf_diagram", sampleSubunits := [("Leaf", ["a+b", "S1"])] }).2.2.2.2
      (by
        intro s hs
        simp only [List.mem_cons, List.mem_singleton, List.not_mem_nil, or_false] at hs
        rcases hs with rfl | rfl
        · exact ⟨"a b", by decide!⟩
        · exact ⟨"S1", by decide!⟩)⟩

/-! ## Lemmas on the escape and its inverse -/

theorem plus_not_mem_replacePlus (cs : List Char) : '+' ∉ replacePlus cs := by
  induction cs with
  | nil => simp [replacePlus]
  | cons c rest ih =>
      by_cases h : c = '+'
      · simp only [replacePlus, h, if_true, List.mem_cons, not_or]
        exact ⟨by decide, by decide, by decide, ih⟩
      · simp only [replacePlus, h, if_false, List.mem_cons, not_or]
        exact ⟨fun h' => h h'.symm, ih⟩

theorem replacePlusBySpace_replaceSpace (l : List Char) (h : '+' ∉ l) :
    replacePlusBySpace (replaceSpace l) = l := by
  induction l with
  | nil => rfl
  | cons c rest ih =>
      have hc : c ≠ '+' := fun hc => h (by simp [hc])
      have hrest : '+' ∉ rest := fun hr => h (List.mem_cons_of_mem _ hr)
      simp only [replaceSpace, replacePlusBySpace, ih hrest]
      by_cases hs : c = ' '
      · simp [hs]
      · simp [hs, hc]

theorem replacePlus_eq_cons (rest t : List Char) (d : Char) (hd : d ≠ '%')
    (h : replacePlus rest = d :: t) : ∃ rest', rest = d :: rest' ∧ replacePlus rest' = t := by
  cases rest with
  | nil => simp [replacePlus] at h
  | cons c r =>
      by_cases hc : c = '+'
      · simp only [replacePlus, hc, if_true, List.cons.injEq] at h
        exact absurd h.1.symm hd
      · simp only [replacePlus, hc, if_false, List.cons.injEq] at h
        exact ⟨r, by rw [h.1], h.2⟩

theorem hasPercent2B_tail (c : Char) (rest : List Char) (h : hasPercent2B (c :: rest) = false) :
    (∀ r : List Char, c = '%' → rest = '2' :: 'B' :: r → False) ∧ hasPercent2B rest = false := by
  have hside : ∀ r : List Char, c = '%' → rest = '2' :: 'B' :: r → False := by
    intro r hc hr
    rw [hc, hr, hasPercent2B.eq_2] at h
    exact absurd h (by simp)
  refine ⟨hside, ?_⟩
  rw [hasPercent2B.eq_3 c rest hside] at h
  exact h

theorem replacePercent2B_replacePlus (cs : List Char) (h : hasPercent2B cs = false) :
    replacePercent2B (replacePlus cs) = cs := by
  induction cs with
  | nil => rfl
  | cons c rest ih =>
      obtain ⟨hside, hrest⟩ := hasPercent2B_tail c rest h
      by_cases hc : c = '+'
      · simp only [replacePlus, hc, if_true]
        rw [replacePercent2B.eq_2, ih hrest]
      · simp only [replacePlus, hc, if_false]
        rw [replacePercent2B.eq_3, ih hrest]
        intro r hpc hr
        obtain ⟨rest', hrest', htail⟩ := replacePlus_eq_cons rest ('B' :: r) '2' (by decide) hr
        obtain ⟨rest'', hrest'', _⟩ := replacePlus_eq_cons rest' r 'B' (by decide) htail
        exact hside rest'' hpc (by rw [hrest', hrest''])

theorem replacePlus_append (a b : List Char) :
    replacePlus (a ++ b) = replacePlus a ++ replacePlus b := by
  induction a with
  | nil => rfl
  | cons c rest ih =>
      by_cases hc : c = '+'
      · simp [replacePlus, hc, ih]
      · simp [replacePlus, hc, ih]

theorem replaceSpace_append (a b : List Char) :
    replaceSpace (a ++ b) = replaceSpace a ++ replaceSpace b := by
  induction a with
  | nil => rfl
  | cons c rest ih => simp [replaceSpace, ih]

theorem dropWhile_eq_self_of_head (p : Char → Bool) (l : List Char)
    (h : ∀ c, l.head? = some c → p c = false) : l.dropWhile p = l := by
  cases l with
  | nil => rfl
  | cons c r =>
      have hc : p c = false := h c rfl
      simp [List.dropWhile, hc]

theorem head_of_dropWhile_eq_self (p : Char → Bool) (l : List Char)
    (h : l.dropWhile p = l) : ∀ c, l.head? = some c → p c = false := by
  intro c hc
  cases l with
  | nil => simp at hc
  | cons d r =>
      have hd : d = c := by simpa using hc
      subst hd
      by_contra hp
      have hp' : p d = true := by simpa using hp
      rw [List.dropWhile_cons_of_pos hp'] at h
      have hlen := (List.dropWhile_suffix p (l := r)).length_le
      rw [h] at hlen
      simp at hlen

theorem trimChars_eq_self_iff (cs : List Char) :
    trimChars cs = cs ↔
      (∀ c, cs.head? = some c → isStrWhiteSpaceChar c = false) ∧
      (∀ c, cs.getLast? = some c → isStrWhiteSpaceChar c = false) := by
  constructor
  · intro h
    unfold trimChars trimStartChars at h
    have hs1 : cs.dropWhile isStrWhiteSpaceChar <:+ cs := List.dropWhile_suffix _
    have hs2 : (cs.dropWhile isStrWhiteSpaceChar).reverse.dropWhile isStrWhiteSpaceChar <:+
        (cs.dropWhile isStrWhiteSpaceChar).reverse := List.dropWhile_suffix _
    have hlen : cs.length =
        ((cs.dropWhile isStrWhiteSpaceChar).reverse.dropWhile isStrWhiteSpaceChar).length := by
      have := congrArg List.length h
      simpa using this.symm
    have hl2 := hs2.length_le
    have hl1 := hs1.length_le
    simp only [List.length_reverse] at hl2
    have h1 : cs.dropWhile isStrWhiteSpaceChar = cs := hs1.eq_of_length (by omega)
    rw [h1] at h
    have h2 : cs.reverse.dropWhile isStrWhiteSpaceChar = cs.reverse := by
      have := congrArg List.reverse h
      simpa using this
    refine ⟨head_of_dropWhile_eq_self _ _ h1, ?_⟩
    intro c hc
    exact head_of_dropWhile_eq_self _ _ h2 c (by simpa using hc)
  · intro ⟨hhead, hlast⟩
    unfold trimChars trimStartChars
    rw [dropWhile_eq_self_of_head _ cs hhead]
    rw [dropWhile_eq_self_of_head _ cs.reverse (by simpa using hlast)]
    simp

theorem trimChars_escape (cs : List Char) (h : trimChars cs = cs) :
    trimChars (replaceSpace (replacePlus cs)) = replaceSpace (replacePlus cs) := by
  obtain ⟨hhead, hlast⟩ := (trimChars_eq_self_iff cs).mp h
  rw [trimChars_eq_self_iff]
  constructor
  · intro x hx
    cases cs with
    | nil => simp [replacePlus, replaceSpace] at hx
    | cons c r =>
        have hc : isStrWhiteSpaceChar c = false := hhead c rfl
        by_cases hp : c = '+'
        · simp only [replacePlus, hp, if_true, replaceSpace, List.head?_cons,
            Option.some.injEq] at hx
          rw [← hx]
          decide
        · by_cases hs : c = ' '
          · rw [hs] at hc
            exact absurd hc (by decide)
          · simp only [replacePlus, hp, if_false, replaceSpace, hs, List.head?_cons,
              Option.some.injEq] at hx
            rw [← hx]
            exact hc
  · intro x hx
    rcases List.eq_nil_or_concat cs with hnil | ⟨init, c, hcs⟩
    · rw [hnil] at hx
      simp [replacePlus, replaceSpace] at hx
    · have hc : isStrWhiteSpaceChar c = false := hlast c (by rw [hcs]; simp)
      rw [hcs, List.concat_eq_append, replacePlus_append, replaceSpace_append] at hx
      by_cases hp : c = '+'
      · simp only [replacePlus, hp, if_true, replaceSpace] at hx
        have hx' : x = 'B' := by simpa using hx.symm
        rw [hx']
        decide
      · by_cases hs : c = ' '
        · rw [hs] at hc
          exact absurd hc (by decide)
        · simp only [replacePlus, hp, if_false, replaceSpace, hs] at hx
          have hx' : x = c := by simpa using hx.symm
          rw [hx']
          exact hc

theorem unescapeName_escapeName (n : String) (htrim : trim n = n)
    (hno : hasPercent2B n.data = false) : unescapeName (escapeName n) = n := by
  have hdata : trimChars n.data = n.data := by
    have := congrArg String.data htrim
    simpa [trim] using this
  simp only [unescapeName, escapeName]
  rw [trimChars_escape n.data hdata,
    replacePlusBySpace_replaceSpace _ (plus_not_mem_replacePlus n.data),
    replacePercent2B_replacePlus n.data hno]

/-! ## The escape and its inverse -/

/-- C11, as stated, fails: the trimmed names `a +` and `a %2B` both contain a
space, are different, and have the same escaped key `a+%2B`; the inverse
substitutions applied to that key return `a +`, not `a %2B`. -/
theorem escapeName_not_injective :
    trim "a +" = "a +" ∧ trim "a %2B" = "a %2B" ∧ "a +" ≠ "a %2B" ∧
    escapeName "a +" = "a+%2B" ∧ escapeName "a %2B" = "a+%2B" ∧
    unescapeName (escapeName "a %2B") = "a +" := by
  decide!

/-- C11, amended: for every trimmed sample name `n` in which the text `%2B`
does not occur, the inverse substitutions (`+` to a space, then `%2B` to
`+`) applied to the escaped key the response handler computes return `n`,
so another such name with the same escaped key is the same name. -/
theorem escapeName_roundtrip (n : String) (htrim : trim n = n)
    (hno : hasPercent2B n.data = false) :
    unescapeName (escapeName n) = n ∧
    ∀ m : String, trim m = m → hasPercent2B m.data = false →
      escapeName m = escapeName n → m = n := by
  refine ⟨unescapeName_escapeName n htrim hno, ?_⟩
  intro m hm hmno heq
  have h1 := unescapeName_escapeName m hm hmno
  have h2 := unescapeName_escapeName n htrim hno
  rw [← h1, heq, h2]

/-- Witness of C11, amended: the name `a b+c`. -/
theorem escapeName_roundtrip_witness :
    trim "a b+c" = "a b+c" ∧ hasPercent2B "a b+c".data = false ∧
    escapeName "a b+c" = "a+b%2Bc" ∧ unescapeName (escapeName "a b+c") = "a b+c" :=
  ⟨by decide!, by decide!, by decide!,
    (escapeName_roundtrip "a b+c" (by decide!) (by decide!)).1⟩

/-! ## Lemmas on the cells the response handler leaves alone -/

theorem valueAt_recordValue_same_region (sample : SampleTable) (r n l n' l' : String)
    (v : JSVal) :
    valueAt (recordValue sample r n l v) r n' l' =
      (Obj.getProp (Obj.setProp ((Obj.getProp sample r).getD []) n
        (Obj.setProp ((Obj.getProp ((Obj.getProp sample r).getD []) n).getD []) l v)) n').bind
        (fun named => Obj.getProp named l') := by
  simp [valueAt, recordValue, Obj.getProp_setProp_same]

theorem valueAt_eq_getD (sample : SampleTable) (r n' l' : String) :
    valueAt sample r n' l' =
      (Obj.getProp ((Obj.getProp sample r).getD []) n').bind
        (fun named => Obj.getProp named l') := by
  unfold valueAt
  cases Obj.getProp sample r with
  | none => simp [Obj.getProp]
  | some subunit => simp

theorem valueAt_recordValue_other (sample : SampleTable) (r n l r' n' l' : String) (v : JSVal)
    (h : r' ≠ r ∨ n' ≠ n ∨ l' ≠ l) :
    valueAt (recordValue sample r n l v) r' n' l' = valueAt sample r' n' l' := by
  by_cases hr : r' = r
  · subst hr
    rw [valueAt_recordValue_same_region, valueAt_eq_getD]
    by_cases hn : n' = n
    · subst hn
      have hl : l' ≠ l := by
        rcases h with h | h | h
        · exact absurd rfl h
        · exact absurd rfl h
        · exact h
      rw [Obj.getProp_setProp_same]
      show Obj.getProp (Obj.setProp _ l v) l' = _
      rw [Obj.getProp_setProp_ne _ _ _ _ hl]
      cases Obj.getProp ((Obj.getProp sample r').getD []) n' with
      | none => simp [Obj.getProp]
      | some named => simp
    · rw [Obj.getProp_setProp_ne _ _ _ _ hn]
  · simp [valueAt, getProp_recordValue_ne sample r r' n l v hr]

theorem valueAt_attributeStep_other (subs : Obj (List String)) (l n : String) (v : JSVal)
    (sample : SampleTable) (s r' n' l' : String)
    (h : n' ≠ n ∨ l' ≠ l ∨ ∀ ids, Obj.getProp subs r' = some ids → n ∉ ids) :
    valueAt (attributeStep subs l n v sample s) r' n' l' = valueAt sample r' n' l' := by
  rcases attributeStep_cases subs l n v sample s with ⟨hs, ids, hget, hin⟩ | ⟨hs, _⟩
  · rw [hs]
    apply valueAt_recordValue_other
    rcases h with h | h | h
    · exact Or.inr (Or.inl h)
    · exact Or.inr (Or.inr h)
    · refine Or.inl ?_
      intro hrs
      subst hrs
      exact h ids hget hin
  · rw [hs]

theorem valueAt_attributeName_other (subs : Obj (List String)) (l n : String) (v : JSVal)
    (regions : List String) (sample : SampleTable) (r' n' l' : String)
    (h : n' ≠ n ∨ l' ≠ l ∨ ∀ ids, Obj.getProp subs r' = some ids → n ∉ ids) :
    valueAt (attributeName subs l n v regions sample) r' n' l' = valueAt sample r' n' l' := by
  induction regions generalizing sample with
  | nil => rfl
  | cons s rest ih =>
      simp only [attributeName, List.foldl_cons]
      have hrest := ih (attributeStep subs l n v sample s)
      simp only [attributeName] at hrest
      rw [hrest]
      exact valueAt_attributeStep_other subs l n v sample s r' n' l' h

theorem valueAt_foldl_attributePair_other (subs : Obj (List String)) (l : String)
    (response : List ResponsePair) (sample : SampleTable) (r' n' l' : String)
    (h : l' ≠ l ∨ (∀ p ∈ response, escapeName (trim p.name) ≠ n') ∨
      ∀ ids, Obj.getProp subs r' = some ids → n' ∉ ids) :
    valueAt (response.foldl (attributePair subs l) sample) r' n' l' =
      valueAt sample r' n' l' := by
  induction response generalizing sample with
  | nil => rfl
  | cons p rest ih =>
      simp only [List.foldl_cons]
      rw [ih]
      · apply valueAt_attributeName_other
        rcases h with h | h | h
        · exact Or.inr (Or.inl h)
        · exact Or.inl (fun heq => h p (List.mem_cons_self _ _) heq.symm)
        · by_cases hn : n' = escapeName (trim p.name)
          · refine Or.inr (Or.inr ?_)
            rw [← hn]
            exact h
          · exact Or.inl hn
      · rcases h with h | h | h
        · exact Or.inl h
        · exact Or.inr (Or.inl (fun q hq => h q (List.mem_cons_of_mem _ hq)))
        · exact Or.inr (Or.inr h)

theorem storedValue_onResponse_other_svg (eFPObjects : Obj EFPEntry) (call : PlantEFPCall)
    (response : List ResponsePair) (svg' r n l : String) (h : svg' ≠ call.svg) :
    storedValue (onResponse eFPObjects call response) svg' r n l =
      storedValue eFPObjects svg' r n l := by
  simp [storedValue, onResponse, Obj.getProp_setProp_ne _ _ _ _ h]

/-! ## Merging a reply into the table -/

/-- C12, as stated, fails: when the reply holds the pairs `S1 ↦ "1"` and
`S1 ↦ "2"`, both attributed to the region `Leaf`, the value stored at
`[leaf_diagram][Leaf][S1][AT1G00000]` after the handler has run is `"2"`:
the value of the first pair is not stored. -/
theorem callPlantEFP_later_pair_overwrites :
    storedValue
      (onReadyStateChange []
        { datasource := some "abiotic", locus := "AT1G00000", samples := ["S1"],
          svg := "leaf_diagram", sampleSubunits := [("Leaf", ["S1"])] }
        4 200 [{ name := "S1", value := JSVal.str "1" }, { name := "S1", value := JSVal.str "2" }])
      "leaf_diagram" "Leaf" "S1" "AT1G00000" = some (JSVal.str "2") ∧
    JSVal.str "1" ≠ JSVal.str "2" := by
  decide!

/-- C12, amended: after the response handler has run on a successful reply,
(i) for a pair attributed to the region `r` and followed in the reply by no
pair with the same escaped name, the value stored at
`[diagram][r][escaped name][locus]` is the value of the pair, unchanged (a
later pair with the same escaped name overwrites it); (ii) every cell
`[svg'][r'][n'][l']` of another diagram, of another locus, of a sample name
that is the escaped name of no pair of the reply, or of a region whose list
does not contain the name, holds what it held before. -/
theorem callPlantEFP_merges_reply (eFPObjects : Obj EFPEntry) (call : PlantEFPCall)
    (earlier later : List ResponsePair) (pair : ResponsePair) (r : String) (ids : List String)
    (hget : Obj.getProp call.sampleSubunits r = some ids)
    (hin : escapeName (trim pair.name) ∈ ids)
    (hlater : ∀ p ∈ later, escapeName (trim p.name) ≠ escapeName (trim pair.name)) :
    storedValue (onReadyStateChange eFPObjects call 4 200 (earlier ++ pair :: later))
      call.svg r (escapeName (trim pair.name)) call.locus = some pair.value ∧
    ∀ svg' r' n' l',
      (svg' ≠ call.svg ∨ l' ≠ call.locus ∨
        (∀ p ∈ earlier ++ pair :: later, escapeName (trim p.name) ≠ n') ∨
        (∀ ids', Obj.getProp call.sampleSubunits r' = some ids' → n' ∉ ids')) →
      storedValue (onReadyStateChange eFPObjects call 4 200 (earlier ++ pair :: later))
        svg' r' n' l' = storedValue eFPObjects svg' r' n' l' := by
  have hready : onReadyStateChange eFPObjects call 4 200 (earlier ++ pair :: later) =
      onResponse eFPObjects call (earlier ++ pair :: later) := by
    simp [onReadyStateChange]
  rw [hready]
  constructor
  · rw [storedValue_onResponse]
    have hsplit : earlier ++ pair :: later = (earlier ++ [pair]) ++ later := by simp
    rw [hsplit, List.foldl_append, valueAt_foldl_attributePair_other _ _ later _ _ _ _
      (Or.inr (Or.inl hlater)), foldl_attributePair_append]
    exact valueAt_attributeName_match call.sampleSubunits call.locus _ pair.value r ids _ _
      (Obj.mem_keys_of_getProp _ _ _ hget) hget hin
  · intro svg' r' n' l' hcell
    by_cases hsvg : svg' = call.svg
    · subst hsvg
      rw [storedValue_onResponse, storedValue_eq_valueAt_getD eFPObjects]
      apply valueAt_foldl_attributePair_other
      rcases hcell with h | h | h | h
      · exact absurd rfl h
      · exact Or.inl h
      · exact Or.inr (Or.inl h)
      · exact Or.inr (Or.inr h)
    · exact storedValue_onResponse_other_svg eFPObjects call _ svg' r' n' l' hsvg

/-- Witness of C12, amended: a reply for the locus `AT2G00000` merged into a
table that holds a value of the locus `AT1G00000`; the non-numeric value
`"n/a"` is stored as it is and the earlier value is still there. -/
theorem callPlantEFP_merges_reply_witness :
    storedValue
      (onReadyStateChange
        [("leaf_diagram", { sample := some [("Leaf", [("S1", [("AT1G00000", JSVal.str "10")])])],
                            db := some "abiotic" })]
        { datasource := some "abiotic", locus := "AT2G00000", samples := ["S1"],
          svg := "leaf_diagram", sampleSubunits := [("Leaf", ["S1"])] }
        4 200 ([] ++ { name := "S1", value := JSVal.str "n/a" } :: []))
      "leaf_diagram" "Leaf" (escapeName (trim "S1")) "AT2G00000" = some (JSVal.str "n/a") ∧
    storedValue
      (onReadyStateChange
        [("leaf_diagram", { sample := some [("Leaf", [("S1", [("AT1G00000", JSVal.str "10")])])],
                            db := some "abiotic" })]
        { datasource := some "abiotic", locus := "AT2G00000", samples := ["S1"],
          svg := "leaf_diagram", sampleSubunits := [("Leaf", ["S1"])] }
        4 200 ([] ++ { name := "S1", value := JSVal.str "n/a" } :: []))
      "leaf_diagram" "Leaf" "S1" "AT1G00000" = some (JSVal.str "10") := by
  have h := callPlantEFP_merges_reply
    [("leaf_diagram", { sample := some [("Leaf", [("S1", [("AT1G00000", JSVal.str "10")])])],
                        db := some "abiotic" })]
    { datasource := some "abiotic", locus := "AT2G00000", samples := ["S1"],
      svg := "leaf_diagram", sampleSubunits := [("Leaf", ["S1"])] }
    [] [] { name := "S1", value := JSVal.str "n/a" } "Leaf" ["S1"]
    (by decide) (by decide!) (by simp)
  refine ⟨h.1, ?_⟩
  rw [h.2 "leaf_diagram" "Leaf" "S1" "AT1G00000" (Or.inr (Or.inl (by decide)))]
  decide!

/-! ## Lemmas on the list of sample IDs -/

theorem foldl_append_getD (sampleOptions : Obj (List String)) (keys : List String)
    (acc : List String) :
    keys.foldl (fun sampleIDList subunit =>
      sampleIDList ++ (Obj.getProp sampleOptions subunit).getD []) acc =
      acc ++ (keys.map (fun subunit => (Obj.getProp sampleOptions subunit).getD [])).flatten := by
  induction keys generalizing acc with
  | nil => simp
  | cons k rest ih => simp [ih, List.append_assoc]

theorem map_getProp_keys (sampleOptions : Obj (List String))
    (hkeys : (Obj.keys sampleOptions).Nodup) :
    (Obj.keys sampleOptions).map (fun subunit => (Obj.getProp sampleOptions subunit).getD []) =
      sampleOptions.map Prod.snd := by
  induction sampleOptions with
  | nil => rfl
  | cons p rest ih =>
      obtain ⟨k, v⟩ := p
      have hnodup : k ∉ Obj.keys rest ∧ (Obj.keys rest).Nodup := by
        simpa [Obj.keys] using hkeys
      have hrest := ih hnodup.2
      simp only [Obj.keys, List.map_cons, List.map_map] at hrest ⊢
      have hhead : (Obj.getProp ((k, v) :: rest) k).getD [] = v := by
        simp [Obj.getProp]
      rw [hhead, ← hrest]
      congr 1
      apply List.map_congr_left
      intro q hq
      have hne : k ≠ q.1 := by
        intro h
        apply hnodup.1
        rw [h]
        exact List.mem_map_of_mem Prod.fst hq
      simp [Obj.getProp, hne]

theorem sampleIDListOf_eq_flatten (sampleOptions : Obj (List String))
    (hkeys : (Obj.keys sampleOptions).Nodup) :
    sampleIDListOf sampleOptions = (sampleOptions.map Prod.snd).flatten := by
  simp [sampleIDListOf, foldl_append_getD, map_getProp_keys sampleOptions hkeys]

/-! ## The flattened list of sample IDs -/

/-- C13: for a catalog entry with `db` present (and its regions under
distinct keys, as the keys of an object are), `retrieveSampleData` makes one
call of `callPlantEFP`, whose sample-ID list is the concatenation of the
regions' lists in key order, each in its own order; its length is the sum of
the lengths of the lists, and every ID occurs in it as many times as it does
in all the lists together (nothing is removed). -/
theorem retrieveSampleData_flattens_sample_ids (sampleData : Obj SampleInfo)
    (svgName locus : String) (info : SampleInfo) (db : String)
    (hget : Obj.getProp sampleData (stripSvgSuffix svgName) = some info)
    (hdb : info.db = some db) (hkeys : (Obj.keys info.sample).Nodup) :
    retrieveSampleData sampleData svgName locus =
      [{ datasource := some db, locus := locus,
         samples := (info.sample.map Prod.snd).flatten,
         svg := stripSvgSuffix svgName, sampleSubunits := info.sample }] ∧
    ((info.sample.map Prod.snd).flatten).length = (info.sample.map (fun p => p.2.length)).sum ∧
    ∀ id : String, ((info.sample.map Prod.snd).flatten).count id =
      (info.sample.map (fun p => p.2.count id)).sum := by
  have hmem : (Obj.keys sampleData).contains (stripSvgSuffix svgName) = true := by
    simpa using Obj.mem_keys_of_getProp sampleData _ info hget
  refine ⟨?_, ?_, ?_⟩
  · simp only [retrieveSampleData, hmem, if_true, hget, hdb,
      sampleIDListOf_eq_flatten info.sample hkeys]
  · rw [List.length_flatten, List.map_map]
    rfl
  · intro id
    rw [List.count_flatten, List.map_map]
    rfl

/-- Witness of C13: the sample `S1` is listed by both regions and occurs
twice in the list passed on. -/
theorem retrieveSampleData_flattens_sample_ids_witness :
    retrieveSampleData
      [("leaf_diagram", { db := some "abiotic",
                          sample := [("Leaf", ["S1", "S2"]), ("Root", ["S3", "S1"])] })]
      "leaf_diagram.svg" "AT1G00000" =
      [{ datasource := some "abiotic", locus := "AT1G00000",
         samples := ["S1", "S2", "S3", "S1"],
         svg := "leaf_diagram",
         sampleSubunits := [("Leaf", ["S1", "S2"]), ("Root", ["S3", "S1"])] }] := by
  have h := (retrieveSampleData_flattens_sample_ids
    [("leaf_diagram", { db := some "abiotic",
                        sample := [("Leaf", ["S1", "S2"]), ("Root", ["S3", "S1"])] })]
    "leaf_diagram.svg" "AT1G00000"
    { db := some "abiotic", sample := [("Leaf", ["S1", "S2"]), ("Root", ["S3", "S1"])] }
    "abiotic" (by decide!) rfl (by decide)).1
  rw [h]
  decide!

/-! ## A failed query -/

/-- C17: when the status of the query is not 200, the handler
`onreadystatechange` of `callPlantEFP` returns without an error and leaves
the table `eFPObjects` as it was, whatever the reply holds: the same
diagrams under the same keys, with the same `db` and `sample` fields. -/
theorem callPlantEFP_failure_leaves_table (eFPObjects : Obj EFPEntry) (call : PlantEFPCall)
    (readyState status : Nat) (response : List ResponsePair) (hfail : status ≠ 200) :
    onReadyStateChange eFPObjects call readyState status response = eFPObjects ∧
    Obj.keys (onReadyStateChange eFPObjects call readyState status response) =
      Obj.keys eFPObjects ∧
    ∀ svg, Obj.getProp (onReadyStateChange eFPObjects call readyState status response) svg =
      Obj.getProp eFPObjects svg := by
  have h : onReadyStateChange eFPObjects call readyState status response = eFPObjects := by
    simp [onReadyStateChange, hfail]
  rw [h]
  exact ⟨rfl, rfl, fun _ => rfl⟩

/-- Witness of C17: a reply with status 404 that holds a pair. -/
theorem callPlantEFP_failure_leaves_table_witness :
    (404 : Nat) ≠ 200 ∧
    onReadyStateChange
      [("leaf_diagram", { sample := some [("Leaf", [("S1", [("AT1G00000", JSVal.str "10")])])],
                          db := some "abiotic" })]
      { datasource := some "abiotic", locus := "AT2G00000", samples := ["S1"],
        svg := "leaf_diagram", sampleSubunits := [("Leaf", ["S1"])] }
      4 404 [{ name := "S1", value := JSVal.str "20" }] =
      [("leaf_diagram", { sample := some [("Leaf", [("S1", [("AT1G00000", JSVal.str "10")])])],
                          db := some "abiotic" })] :=
  ⟨by decide,
    (callPlantEFP_failure_leaves_table
      [("leaf_diagram", { sample := some [("Leaf", [("S1", [("AT1G00000", JSVal.str "10")])])],
                          db := some "abiotic" })]
      { datasource := some "abiotic", locus := "AT2G00000", samples := ["S1"],
        svg := "leaf_diagram", sampleSubunits := [("Leaf", ["S1"])] }
      4 404 [{ name := "S1", value := JSVal.str "20" }] (by decide)).1⟩

/-! ## The marker of a locus without data -/

/-- C15 fails on the code: `retrieveTopExpressionValues` writes the key
`error` on the object `topExpressionValues` refers to instead of replacing
the object. With the cached document `{locus: {AT1G01010: {max: 5}}}`, after
a successful lookup of `AT1G01010` the lookup of the absent locus
`AT9G99999` leaves `topExpressionValues` with the keys `max` and `error`,
and the entry of `AT1G01010` in the cached document has the key `error`
too. The result is the marker alone, and the document is unchanged, when
`topExpressionValues` was an object of its own without other keys, as after
the constructor or after an earlier marker. -/
theorem retrieveTopExpressionValues_marker_keeps_other_keys :
    readTopExpressionValues
      (retrieveTopExpressionValues
        (retrieveTopExpressionValues
          { expressionValues := some [("AT1G01010", [("max", JSVal.num (JSNum.fin 5))])],
            topExpressionValues := TopRef.own [] }
          "AT1G01010")
        "AT9G99999") =
      some [("max", JSVal.num (JSNum.fin 5)), ("error", JSVal.str "No data for AT9G99999")] ∧
    (retrieveTopExpressionValues
        (retrieveTopExpressionValues
          { expressionValues := some [("AT1G01010", [("max", JSVal.num (JSNum.fin 5))])],
            topExpressionValues := TopRef.own [] }
          "AT1G01010")
        "AT9G99999").expressionValues =
      some [("AT1G01010",
        [("max", JSVal.num (JSNum.fin 5)), ("error", JSVal.str "No data for AT9G99999")])] ∧
    (∀ (document : Obj (Obj JSVal)) (values : Obj JSVal) (locus : String),
      Obj.getProp document locus = none →
      retrieveTopExpressionValues
        { expressionValues := some document, topExpressionValues := TopRef.own values } locus =
        { expressionValues := some document,
          topExpressionValues :=
            TopRef.own (Obj.setProp values "error" (JSVal.str ("No data for " ++ locus))) }) ∧
    readTopExpressionValues
      (retrieveTopExpressionValues
        (retrieveTopExpressionValues
          { expressionValues := some [("AT1G01010", [("max", JSVal.num (JSNum.fin 5))])],
            topExpressionValues := TopRef.own [] }
          "AT8G88888")
        "AT9G99999") =
      some [("error", JSVal.str "No data for AT9G99999")] := by
  refine ⟨by decide!, by decide!, ?_, by decide!⟩
  intro document values locus habsent
  simp [retrieveTopExpressionValues, lookUpLocus, habsent]

/-! ## Lemmas on `updateChecker` -/

theorem updateChecker_of_ready (observed : Nat → Obj EFPEntry × List String) (i : Nat)
    (hi : i < 200) (hready : readinessCheck (observed i).1 (observed i).2 = true) :
    updateChecker observed i = { checks := 1, appliedAt := some i } := by
  rw [updateChecker]
  simp [hi, hready]

theorem updateChecker_of_not_ready (observed : Nat → Obj EFPEntry × List String) (i : Nat)
    (hi : i < 200) (hready : readinessCheck (observed i).1 (observed i).2 = false) :
    updateChecker observed i =
      { checks := (updateChecker observed (i + 1)).checks + 1,
        appliedAt := (updateChecker observed (i + 1)).appliedAt } := by
  rw [updateChecker]
  simp [hi, hready]

theorem updateChecker_of_exhausted (observed : Nat → Obj EFPEntry × List String) (i : Nat)
    (hi : ¬ i < 200) : updateChecker observed i = { checks := 0, appliedAt := none } := by
  rw [updateChecker]
  simp [hi]

theorem updateChecker_never_ready (observed : Nat → Obj EFPEntry × List String) :
    ∀ d i, i + d = 200 →
      (∀ j, i ≤ j → j < 200 → readinessCheck (observed j).1 (observed j).2 = false) →
      updateChecker observed i = { checks := d, appliedAt := none } := by
  intro d
  induction d with
  | zero =>
      intro i hi _
      exact updateChecker_of_exhausted observed i (by omega)
  | succ d ih =>
      intro i hi hnot
      rw [updateChecker_of_not_ready observed i (by omega) (hnot i (le_refl _) (by omega)),
        ih (i + 1) (by omega) (fun j hj hj' => hnot j (by omega) hj')]

theorem updateChecker_first_ready (observed : Nat → Obj EFPEntry × List String) :
    ∀ d i, i + d < 200 → readinessCheck (observed (i + d)).1 (observed (i + d)).2 = true →
      (∀ j, i ≤ j → j < i + d → readinessCheck (observed j).1 (observed j).2 = false) →
      updateChecker observed i = { checks := d + 1, appliedAt := some (i + d) } := by
  intro d
  induction d with
  | zero =>
      intro i hi hready _
      exact updateChecker_of_ready observed i hi hready
  | succ d ih =>
      intro i hi hready hnot
      have hnext : i + 1 + d = i + (d + 1) := by omega
      rw [updateChecker_of_not_ready observed i (by omega) (hnot i (le_refl _) (by omega)),
        ih (i + 1) (by omega) (by rw [hnext]; exact hready)
          (fun j hj hj' => hnot j (by omega) (by omega))]
      simp [hnext]

theorem updateChecker_cases (observed : Nat → Obj EFPEntry × List String) :
    updateChecker observed 0 = { checks := 200, appliedAt := none } ∧
      (∀ j, j < 200 → readinessCheck (observed j).1 (observed j).2 = false) ∨
    ∃ k, k < 200 ∧ readinessCheck (observed k).1 (observed k).2 = true ∧
      (∀ j, j < k → readinessCheck (observed j).1 (observed j).2 = false) ∧
      updateChecker observed 0 = { checks := k + 1, appliedAt := some k } := by
  by_cases h : ∃ k, k < 200 ∧ readinessCheck (observed k).1 (observed k).2 = true
  · right
    refine ⟨Nat.find h, (Nat.find_spec h).1, (Nat.find_spec h).2, ?_, ?_⟩
    · intro j hj
      have hmin := Nat.find_min h hj
      have hj200 : j < 200 := lt_trans hj (Nat.find_spec h).1
      simpa [hj200] using hmin
    · have := updateChecker_first_ready observed (Nat.find h) 0
        (by simpa using (Nat.find_spec h).1) (by simpa using (Nat.find_spec h).2)
        (by
          intro j _ hj
          have hj' : j < Nat.find h := by simpa using hj
          have hmin := Nat.find_min h hj'
          have hj200 : j < 200 := lt_trans hj' (Nat.find_spec h).1
          simpa [hj200] using hmin)
      simpa using this
  · left
    have hnot : ∀ j, j < 200 → readinessCheck (observed j).1 (observed j).2 = false := by
      intro j hj
      by_contra hr
      exact h ⟨j, hj, by simpa using hr⟩
    exact ⟨updateChecker_never_ready observed 200 0 (by omega) (fun j _ hj => hnot j hj), hnot⟩

/-! ## The bound of the polling -/

/-- C16: whatever the timer callbacks observe, `updateChecker` started at
iteration 0 runs the readiness test at most 200 times; when the test fails
at each of the 200 callbacks the chain ends after them without a call of
`addSVGtoDOM`; when the callback `k` (counted from 0, below 200) is the
first whose test holds, `addSVGtoDOM` is called by that callback and the
test has run `k + 1` times, so no test runs after it; and `addSVGtoDOM` is
called by no other callback. -/
theorem updateChecker_bounded (observed : Nat → Obj EFPEntry × List String) :
    (updateChecker observed 0).checks ≤ 200 ∧
    ((∀ j, j < 200 → readinessCheck (observed j).1 (observed j).2 = false) →
      updateChecker observed 0 = { checks := 200, appliedAt := none }) ∧
    (∀ k, k < 200 → readinessCheck (observed k).1 (observed k).2 = true →
      (∀ j, j < k → readinessCheck (observed j).1 (observed j).2 = false) →
      updateChecker observed 0 = { checks := k + 1, appliedAt := some k }) ∧
    (∀ k, (updateChecker observed 0).appliedAt = some k →
      k < 200 ∧ readinessCheck (observed k).1 (observed k).2 = true ∧
      (∀ j, j < k → readinessCheck (observed j).1 (observed j).2 = false) ∧
      (updateChecker observed 0).checks = k + 1) := by
  refine ⟨?_, ?_, ?_, ?_⟩
  · rcases updateChecker_cases observed with ⟨h, _⟩ | ⟨k, hk, _, _, h⟩
    · rw [h]
    · rw [h]
      exact hk
  · intro hnot
    exact updateChecker_never_ready observed 200 0 (by omega) (fun j _ hj => hnot j hj)
  · intro k hk hready hnot
    have := updateChecker_first_ready observed k 0 (by simpa using hk)
      (by simpa using hready) (fun j _ hj => hnot j (by simpa using hj))
    simpa using this
  · intro k happlied
    rcases updateChecker_cases observed with ⟨h, _⟩ | ⟨k', hk', hready, hnot, h⟩
    · rw [h] at happlied
      cases happlied
    · rw [h] at happlied
      have hkk : k' = k := by
        cases happlied
        rfl
      subst hkk
      exact ⟨hk', hready, hnot, by rw [h]⟩

/-- Witness of C16: the table has no diagram at the callbacks 0, 1 and 2 and
the requested one from the callback 3 on; `addSVGtoDOM` is called by the
callback 3 after four tests. -/
theorem updateChecker_bounded_witness :
    updateChecker
      (fun i => if i < 3 then ([], ["leaf_diagram"])
        else ([("leaf_diagram", { sample := some [], db := some "abiotic" })], ["leaf_diagram"]))
      0 = { checks := 4, appliedAt := some 3 } :=
  (updateChecker_bounded
    (fun i => if i < 3 then ([], ["leaf_diagram"])
      else ([("leaf_diagram", { sample := some [], db := some "abiotic" })],
        ["leaf_diagram"]))).2.2.1 3 (by decide) (by decide) (by decide)

/-! ## The colour of a percentage -/

/-- C14 fails on the code: `percentageToColour` takes the index with
`parseInt`, which prints the Number first, and a Number below `0.000001`
prints in exponential notation. The percentage `0.0000005` prints as `5e-7`,
`parseInt` gives 5, and the colour returned is the entry 5 `#fff600` where
the entry `trunc(p) = 0` is `#ffff00`. The rest of the claim holds on the
table: it has 101 entries, every whole percentage from 0 to 100 gets its own
entry (and `33.7` the entry 33), every entry is a colour with red `ff` and
blue `00`, and green does not increase along the table. -/
theorem percentageToColour_small_percentage_wrong_index :
    numberToString (JSNum.fin (5 / 10000000)) = "5e-7" ∧
    parseInt (JSNum.fin (5 / 10000000)) = JSNum.fin 5 ∧
    percentageToColour (JSNum.fin (5 / 10000000)) = some "#fff600" ∧
    colourList.get? ⌊(5 / 10000000 : ℚ)⌋.toNat = some "#ffff00" ∧
    colourList.length = 101 ∧
    (∀ k : Nat, k < 101 → percentageToColour (JSNum.fin (k : ℚ)) = colourList.get? k) ∧
    percentageToColour (JSNum.fin (337 / 10)) = colourList.get? 33 ∧
    (colourList.filterMap colourComponents).length = 101 ∧
    (∀ c ∈ colourList.filterMap colourComponents, c.1 = 255 ∧ c.2.2 = 0) ∧
    List.Pairwise (fun g g' => g' ≤ g)
      ((colourList.filterMap colourComponents).map (fun c => c.2.1)) := by
  refine ⟨by decide!, by decide!, by decide!, by decide!, by decide, by decide!, by decide!,
    by decide!, by decide!, by decide!⟩

/-! ## Lemmas on the keys of an object -/

theorem Obj.keys_setProp {α : Type} (o : Obj α) (k : String) (v : α) :
    Obj.keys (Obj.setProp o k v) = if k ∈ Obj.keys o then Obj.keys o else Obj.keys o ++ [k] := by
  induction o with
  | nil => simp [Obj.setProp, Obj.keys]
  | cons p rest ih =>
      obtain ⟨k', v'⟩ := p
      by_cases h : k' = k
      · subst h
        simp [Obj.setProp, Obj.keys]
      · have hne : ¬ k = k' := fun h' => h h'.symm
        have ih' : List.map Prod.fst (Obj.setProp rest k v) =
            if k ∈ List.map Prod.fst rest then List.map Prod.fst rest
            else List.map Prod.fst rest ++ [k] := ih
        simp only [Obj.setProp, h, if_false, Obj.keys, List.map_cons, List.mem_cons, hne,
          false_or, ih']
        by_cases hmem : k ∈ List.map Prod.fst rest
        · simp [hmem]
        · simp [hmem]

theorem Obj.mem_keys_setProp {α : Type} (o : Obj α) (k x : String) (v : α)
    (h : x ∈ Obj.keys (Obj.setProp o k v)) : x ∈ Obj.keys o ∨ x = k := by
  rw [Obj.keys_setProp] at h
  by_cases hk : k ∈ Obj.keys o
  · rw [if_pos hk] at h
    exact Or.inl h
  · rw [if_neg hk] at h
    rcases List.mem_append.mp h with h | h
    · exact Or.inl h
    · exact Or.inr (by simpa using h)

theorem Obj.nodup_keys_setProp {α : Type} (o : Obj α) (k : String) (v : α)
    (h : (Obj.keys o).Nodup) : (Obj.keys (Obj.setProp o k v)).Nodup := by
  rw [Obj.keys_setProp]
  by_cases hk : k ∈ Obj.keys o
  · rw [if_pos hk]
    exact h
  · rw [if_neg hk]
    exact List.Nodup.append h (List.nodup_singleton k) (by simpa using hk)

/-! ## Lemmas on the steps of the application -/

theorem retrieveSampleData_svg (sampleData : Obj SampleInfo) (svgName locus : String)
    (call : PlantEFPCall) (h : call ∈ retrieveSampleData sampleData svgName locus) :
    call.svg = stripSvgSuffix svgName ∧ stripSvgSuffix svgName ∈ Obj.keys sampleData := by
  simp only [retrieveSampleData] at h
  by_cases hmem : (Obj.keys sampleData).contains (stripSvgSuffix svgName) = true
  · rw [if_pos hmem] at h
    cases hget : Obj.getProp sampleData (stripSvgSuffix svgName) with
    | none =>
        rw [hget] at h
        simp at h
    | some info =>
        rw [hget] at h
        simp only [List.mem_singleton] at h
        rw [h]
        exact ⟨rfl, by simpa using hmem⟩
  · rw [if_neg hmem] at h
    simp at h

theorem onReadyStateChange_keys (eFPObjects : Obj EFPEntry) (call : PlantEFPCall)
    (readyState status : Nat) (response : List ResponsePair) :
    onReadyStateChange eFPObjects call readyState status response = eFPObjects ∨
      ∃ entry, onReadyStateChange eFPObjects call readyState status response =
        Obj.setProp eFPObjects call.svg entry := by
  unfold onReadyStateChange
  by_cases h : readyState = 4 ∧ status = 200
  · rw [if_pos h]
    exact Or.inr ⟨_, rfl⟩
  · rw [if_neg h]
    exact Or.inl rfl

theorem generateSVG_of_none (s : AppState) (svgName locus desiredDOMid : String)
    (h : Obj.getProp s.sampleData "AbioticStress" = none) :
    generateSVG s svgName locus desiredDOMid =
      { s with
        clickList := if s.clickList.contains svgName then s.clickList
                     else s.clickList ++ [svgName],
        desiredDOMid := desiredDOMid,
        catalogRequests := s.catalogRequests ++ [(svgName, locus)],
        timers := s.timers ++ [(svgName, locus, 0)] } := by
  simp [generateSVG, loadSampleData, h]

theorem generateSVG_of_some (s : AppState) (svgName locus desiredDOMid : String)
    (info : SampleInfo) (h : Obj.getProp s.sampleData "AbioticStress" = some info) :
    generateSVG s svgName locus desiredDOMid =
      { s with
        clickList := if s.clickList.contains svgName then s.clickList
                     else s.clickList ++ [svgName],
        desiredDOMid := desiredDOMid,
        queries := s.queries ++ retrieveSampleData s.sampleData svgName locus,
        timers := s.timers ++ [(svgName, locus, 0)] } := by
  simp [generateSVG, loadSampleData, h]

theorem generateSVG_clickList (s : AppState) (svgName locus desiredDOMid : String) :
    (generateSVG s svgName locus desiredDOMid).clickList =
      if s.clickList.contains svgName then s.clickList else s.clickList ++ [svgName] := by
  cases hs : Obj.getProp s.sampleData "AbioticStress" with
  | none => rw [generateSVG_of_none s svgName locus desiredDOMid hs]
  | some info => rw [generateSVG_of_some s svgName locus desiredDOMid info hs]

theorem generateSVG_fields (s : AppState) (svgName locus desiredDOMid : String) :
    (generateSVG s svgName locus desiredDOMid).eFPObjects = s.eFPObjects ∧
    (generateSVG s svgName locus desiredDOMid).sampleData = s.sampleData ∧
    (generateSVG s svgName locus desiredDOMid).applied = s.applied ∧
    (∀ q ∈ (generateSVG s svgName locus desiredDOMid).catalogRequests,
      q ∈ s.catalogRequests ∨ q = (svgName, locus)) ∧
    (∀ c ∈ (generateSVG s svgName locus desiredDOMid).queries,
      c ∈ s.queries ∨
        (c ∈ retrieveSampleData s.sampleData svgName locus ∧ s.sampleData ≠ [])) := by
  cases hs : Obj.getProp s.sampleData "AbioticStress" with
  | none =>
      rw [generateSVG_of_none s svgName locus desiredDOMid hs]
      refine ⟨rfl, rfl, rfl, ?_, ?_⟩
      · intro q hq
        rcases List.mem_append.mp hq with hq | hq
        · exact Or.inl hq
        · exact Or.inr (by simpa using hq)
      · intro c hc
        exact Or.inl hc
  | some info =>
      have hne : s.sampleData ≠ [] := by
        intro hnil
        rw [hnil] at hs
        simp [Obj.getProp] at hs
      rw [generateSVG_of_some s svgName locus desiredDOMid info hs]
      refine ⟨rfl, rfl, rfl, ?_, ?_⟩
      · intro q hq
        exact Or.inl hq
      · intro c hc
        rcases List.mem_append.mp hc with hc | hc
        · exact Or.inl hc
        · exact Or.inr ⟨hc, hne⟩

theorem mem_of_get?_eq_some {α : Type} (l : List α) (i : Nat) (a : α) (h : l.get? i = some a) :
    a ∈ l :=
  List.get?_mem h

/-! ## The invariant of the request history -/

theorem mem_clickList_generateSVG (s : AppState) (svgName locus desiredDOMid n : String)
    (h : n ∈ s.clickList) : n ∈ (generateSVG s svgName locus desiredDOMid).clickList := by
  rw [generateSVG_clickList]
  by_cases hc : s.clickList.contains svgName = true
  · rw [if_pos hc]
    exact h
  · rw [if_neg hc]
    exact List.mem_append_left _ h

theorem self_mem_clickList_generateSVG (s : AppState) (svgName locus desiredDOMid : String) :
    svgName ∈ (generateSVG s svgName locus desiredDOMid).clickList := by
  rw [generateSVG_clickList]
  by_cases hc : s.clickList.contains svgName = true
  · rw [if_pos hc]
    simpa using hc
  · rw [if_neg hc]
    simp

theorem appInvariant_generateSVG (catalog : Obj SampleInfo) (s : AppState)
    (svgName locus desiredDOMid : String) (h : AppInvariant catalog s) :
    AppInvariant catalog (generateSVG s svgName locus desiredDOMid) := by
  obtain ⟨hclick, hkeys, hdata, hefp, hqueries, hcat⟩ := h
  obtain ⟨fe, fd, _, fc, fq⟩ := generateSVG_fields s svgName locus desiredDOMid
  refine ⟨?_, ?_, ?_, ?_, ?_, ?_⟩
  · rw [generateSVG_clickList]
    by_cases hc : s.clickList.contains svgName = true
    · rw [if_pos hc]
      exact hclick
    · rw [if_neg hc]
      have hnot : svgName ∉ s.clickList := by simpa using hc
      exact List.Nodup.append hclick (List.nodup_singleton _) (by simpa using hnot)
  · rw [fe]
    exact hkeys
  · rw [fd]
    exact hdata
  · intro k hk
    rw [fe] at hk
    obtain ⟨hk1, n, hn, hstrip⟩ := hefp k hk
    exact ⟨hk1, n, mem_clickList_generateSVG s svgName locus desiredDOMid n hn, hstrip⟩
  · intro c hc
    rcases fq c hc with hold | ⟨hnew, hne⟩
    · obtain ⟨hk1, n, hn, hstrip⟩ := hqueries c hold
      exact ⟨hk1, n, mem_clickList_generateSVG s svgName locus desiredDOMid n hn, hstrip⟩
    · have hcatalog : s.sampleData = catalog := by
        rcases hdata with hnil | hcatalog
        · exact absurd hnil hne
        · exact hcatalog
      rw [hcatalog] at hnew
      obtain ⟨hsvg, hmem⟩ := retrieveSampleData_svg catalog svgName locus c hnew
      exact ⟨by rw [hsvg]; exact hmem, svgName,
        self_mem_clickList_generateSVG s svgName locus desiredDOMid, hsvg.symm⟩
  · intro q hq
    rcases fc q hq with hold | hnew
    · exact mem_clickList_generateSVG s svgName locus desiredDOMid _ (hcat q hold)
    · rw [hnew]
      exact self_mem_clickList_generateSVG s svgName locus desiredDOMid

theorem appInvariant_catalogReply (catalog : Obj SampleInfo) (s : AppState) (i status : Nat)
    (h : AppInvariant catalog s) : AppInvariant catalog (catalogReply catalog s i status) := by
  obtain ⟨hclick, hkeys, hdata, hefp, hqueries, hcat⟩ := h
  unfold catalogReply
  cases hget : s.catalogRequests.get? i with
  | none => exact ⟨hclick, hkeys, hdata, hefp, hqueries, hcat⟩
  | some q =>
      obtain ⟨svgName, locus⟩ := q
      have hq : svgName ∈ s.clickList := hcat (svgName, locus) (List.get?_mem hget)
      have herase : ∀ q' ∈ s.catalogRequests.eraseIdx i, q'.1 ∈ s.clickList :=
        fun q' hq' => hcat q' (List.mem_of_mem_eraseIdx hq')
      by_cases hst : status = 200
      · simp only [hst, if_true]
        refine ⟨hclick, hkeys, Or.inr rfl, hefp, ?_, herase⟩
        intro c hc
        rcases List.mem_append.mp hc with hc | hc
        · exact hqueries c hc
        · obtain ⟨hsvg, hmem⟩ := retrieveSampleData_svg catalog svgName locus c hc
          exact ⟨by rw [hsvg]; exact hmem, svgName, hq, hsvg.symm⟩
      · simp only [hst, if_false]
        exact ⟨hclick, hkeys, hdata, hefp, hqueries, herase⟩

theorem appInvariant_setProp (catalog : Obj SampleInfo) (s : AppState) (call : PlantEFPCall)
    (i : Nat) (table : Obj EFPEntry) (h : AppInvariant catalog s) (hcall : call ∈ s.queries)
    (htable : table = s.eFPObjects ∨ ∃ entry, table = Obj.setProp s.eFPObjects call.svg entry) :
    AppInvariant catalog { s with queries := s.queries.eraseIdx i, eFPObjects := table } := by
  obtain ⟨hclick, hkeys, hdata, hefp, hqueries, hcat⟩ := h
  have herase : ∀ c ∈ s.queries.eraseIdx i,
      c.svg ∈ Obj.keys catalog ∧ ∃ n ∈ s.clickList, stripSvgSuffix n = c.svg :=
    fun c hc => hqueries c (List.mem_of_mem_eraseIdx hc)
  rcases htable with hsame | ⟨entry, hset⟩
  · rw [hsame]
    exact ⟨hclick, hkeys, hdata, hefp, herase, hcat⟩
  · rw [hset]
    refine ⟨hclick, Obj.nodup_keys_setProp _ _ _ hkeys, hdata, ?_, herase, hcat⟩
    intro k hk
    rcases Obj.mem_keys_setProp _ _ _ _ hk with hold | hnew
    · exact hefp k hold
    · rw [hnew]
      exact hqueries call hcall

theorem appInvariant_step (catalog : Obj SampleInfo) (s : AppState) (e : Event)
    (h : AppInvariant catalog s) : AppInvariant catalog (step catalog s e) := by
  cases e with
  | generate svgName locus desiredDOMid =>
      exact appInvariant_generateSVG catalog s svgName locus desiredDOMid h
  | catalogDone i status => exact appInvariant_catalogReply catalog s i status h
  | queryDone i status response =>
      simp only [step, queryReply]
      cases hget : s.queries.get? i with
      | none => exact h
      | some call =>
          exact appInvariant_setProp catalog s call i _ h (List.get?_mem hget)
            (onReadyStateChange_keys s.eFPObjects call 4 status response)
  | queryMalformed i =>
      simp only [step, queryReplyMalformed]
      cases hget : s.queries.get? i with
      | none => exact h
      | some call =>
          exact appInvariant_setProp catalog s call i _ h (List.get?_mem hget)
            (Or.inr ⟨_, rfl⟩)
  | timer i =>
      obtain ⟨hclick, hkeys, hdata, hefp, hqueries, hcat⟩ := h
      simp only [step, timerFires]
      cases hget : s.timers.get? i with
      | none => exact ⟨hclick, hkeys, hdata, hefp, hqueries, hcat⟩
      | some t =>
          obtain ⟨svgName, locus, iteration⟩ := t
          by_cases hready : readinessCheck s.eFPObjects s.clickList = true
          · simp only [hready, if_true]
            exact ⟨hclick, hkeys, hdata, hefp, hqueries, hcat⟩
          · by_cases hit : iteration + 1 < 200
            · simp only [hready, hit, if_true, if_false]
              exact ⟨hclick, hkeys, hdata, hefp, hqueries, hcat⟩
            · simp only [hready, hit, if_false]
              exact ⟨hclick, hkeys, hdata, hefp, hqueries, hcat⟩

theorem appInvariant_initial (catalog : Obj SampleInfo) :
    AppInvariant catalog AppState.initial := by
  refine ⟨List.nodup_nil, List.nodup_nil, Or.inl rfl, ?_, ?_, ?_⟩
  · intro k hk
    simp [AppState.initial, Obj.keys] at hk
  · intro c hc
    simp [AppState.initial] at hc
  · intro q hq
    simp [AppState.initial] at hq

theorem run_append (catalog : Obj SampleInfo) (s : AppState) (a b : List Event) :
    run catalog s (a ++ b) = run catalog (run catalog s a) b := by
  simp [run, List.foldl_append]

theorem appInvariant_run (catalog : Obj SampleInfo) (events : List Event) (s : AppState)
    (h : AppInvariant catalog s) : AppInvariant catalog (run catalog s events) := by
  induction events generalizing s with
  | nil => exact h
  | cons e rest ih => exact ih (step catalog s e) (appInvariant_step catalog s e h)

theorem keys_length_le (catalog : Obj SampleInfo) (s : AppState) (h : AppInvariant catalog s) :
    (Obj.keys s.eFPObjects).length ≤
      (s.clickList.filter (fun n => decide (stripSvgSuffix n ∈ Obj.keys catalog))).length := by
  obtain ⟨_, hkeys, _, hefp, _, _⟩ := h
  have hsub : Obj.keys s.eFPObjects ⊆
      (s.clickList.filter (fun n => decide (stripSvgSuffix n ∈ Obj.keys catalog))).map
        stripSvgSuffix := by
    intro k hk
    obtain ⟨hk1, n, hn, hstrip⟩ := hefp k hk
    rw [List.mem_map]
    refine ⟨n, ?_, hstrip⟩
    rw [List.mem_filter]
    exact ⟨hn, by simpa [hstrip] using hk1⟩
  have := (List.Nodup.subperm hkeys hsub).length_le
  simpa using this

theorem keys_length_bounds (catalog : Obj SampleInfo) (s : AppState)
    (h : AppInvariant catalog s) :
    (Obj.keys s.eFPObjects).length ≤ s.clickList.length ∧
    ∀ n ∈ s.clickList, stripSvgSuffix n ∉ Obj.keys catalog →
      (Obj.keys s.eFPObjects).length < s.clickList.length ∧
      readinessCheck s.eFPObjects s.clickList = false := by
  have hle := keys_length_le catalog s h
  refine ⟨le_trans hle (List.length_filter_le _ _), ?_⟩
  intro n hn habsent
  have hlt : (s.clickList.filter
      (fun n => decide (stripSvgSuffix n ∈ Obj.keys catalog))).length < s.clickList.length := by
    rw [List.length_filter_lt_length_iff_exists]
    exact ⟨n, hn, by simpa using habsent⟩
  have hstrict : (Obj.keys s.eFPObjects).length < s.clickList.length := lt_of_le_of_lt hle hlt
  refine ⟨hstrict, ?_⟩
  simp only [readinessCheck, decide_eq_false_iff_not]
  omega

theorem mem_clickList_step (catalog : Obj SampleInfo) (s : AppState) (e : Event) (n : String)
    (h : n ∈ s.clickList) : n ∈ (step catalog s e).clickList := by
  cases e with
  | generate svgName locus desiredDOMid =>
      exact mem_clickList_generateSVG s svgName locus desiredDOMid n h
  | catalogDone i status =>
      simp only [step, catalogReply]
      cases s.catalogRequests.get? i with
      | none => exact h
      | some q =>
          obtain ⟨svgName, locus⟩ := q
          by_cases hst : status = 200
          · simp only [hst, if_true]
            exact h
          · simp only [hst, if_false]
            exact h
  | queryDone i status response =>
      simp only [step, queryReply]
      cases s.queries.get? i with
      | none => exact h
      | some call => exact h
  | queryMalformed i =>
      simp only [step, queryReplyMalformed]
      cases s.queries.get? i with
      | none => exact h
      | some call => exact h
  | timer i =>
      simp only [step, timerFires]
      cases s.timers.get? i with
      | none => exact h
      | some t =>
          obtain ⟨svgName, locus, iteration⟩ := t
          by_cases hready : readinessCheck s.eFPObjects s.clickList = true
          · simp only [hready, if_true]
            exact h
          · by_cases hit : iteration + 1 < 200
            · simp only [hready, hit, if_true, if_false]
              exact h
            · simp only [hready, hit, if_false]
              exact h

theorem applied_step (catalog : Obj SampleInfo) (s : AppState) (e : Event)
    (hnot : readinessCheck s.eFPObjects s.clickList = false) :
    (step catalog s e).applied = s.applied := by
  cases e with
  | generate svgName locus desiredDOMid =>
      exact (generateSVG_fields s svgName locus desiredDOMid).2.2.1
  | catalogDone i status =>
      simp only [step, catalogReply]
      cases s.catalogRequests.get? i with
      | none => rfl
      | some q =>
          obtain ⟨svgName, locus⟩ := q
          by_cases hst : status = 200
          · simp only [hst, if_true]
          · simp only [hst, if_false]
  | queryDone i status response =>
      simp only [step, queryReply]
      cases s.queries.get? i with
      | none => rfl
      | some call => rfl
  | queryMalformed i =>
      simp only [step, queryReplyMalformed]
      cases s.queries.get? i with
      | none => rfl
      | some call => rfl
  | timer i =>
      simp only [step, timerFires]
      cases s.timers.get? i with
      | none => rfl
      | some t =>
          obtain ⟨svgName, locus, iteration⟩ := t
          by_cases hit : iteration + 1 < 200
          · simp only [hnot, hit, if_true, Bool.false_eq_true, if_false]
          · simp only [hnot, hit, Bool.false_eq_true, if_false]

theorem run_after_absent (catalog : Obj SampleInfo) (n : String)
    (habsent : stripSvgSuffix n ∉ Obj.keys catalog) (later : List Event) (s : AppState)
    (hinv : AppInvariant catalog s) (hn : n ∈ s.clickList) :
    n ∈ (run catalog s later).clickList ∧ (run catalog s later).applied = s.applied := by
  induction later generalizing s with
  | nil => exact ⟨hn, rfl⟩
  | cons e rest ih =>
      have hnot := ((keys_length_bounds catalog s hinv).2 n hn habsent).2
      obtain ⟨h1, h2⟩ := ih (step catalog s e) (appInvariant_step catalog s e hinv)
        (mem_clickList_step catalog s e n hn)
      exact ⟨h1, h2.trans (applied_step catalog s e hnot)⟩

/-! ## The readiness invariant -/

/-- C18: in every state reached from the initial one by calls of
`generateSVG`, completions of their catalog requests and queries (with the
catalog document `catalog`) and timers of `updateChecker`, the names of
`clickList` are distinct and `eFPObjects` has at most as many keys as
`clickList` has names; and once `generateSVG` has been called with a name
that, without `.svg`, is no key of the catalog, in every later state
`eFPObjects` has fewer keys than `clickList` has names, the readiness test
of `updateChecker` is false, and no timer has called `addSVGtoDOM` since. -/
theorem readiness_invariant (catalog : Obj SampleInfo) (events : List Event) :
    (run catalog AppState.initial events).clickList.Nodup ∧
    (Obj.keys (run catalog AppState.initial events).eFPObjects).length ≤
      (run catalog AppState.initial events).clickList.length ∧
    ∀ (earlier later : List Event) (svgName locus desiredDOMid : String),
      events = earlier ++ Event.generate svgName locus desiredDOMid :: later →
      stripSvgSuffix svgName ∉ Obj.keys catalog →
      (Obj.keys (run catalog AppState.initial events).eFPObjects).length <
        (run catalog AppState.initial events).clickList.length ∧
      readinessCheck (run catalog AppState.initial events).eFPObjects
        (run catalog AppState.initial events).clickList = false ∧
      (run catalog AppState.initial events).applied =
        (run catalog AppState.initial earlier).applied := by
  have hinv := appInvariant_run catalog events AppState.initial (appInvariant_initial catalog)
  refine ⟨hinv.1, (keys_length_bounds catalog _ hinv).1, ?_⟩
  intro earlier later svgName locus desiredDOMid hsplit habsent
  have hinv0 := appInvariant_run catalog earlier AppState.initial (appInvariant_initial catalog)
  have hinv1 := appInvariant_generateSVG catalog _ svgName locus desiredDOMid hinv0
  have hrun : run catalog AppState.initial events =
      run catalog
        (generateSVG (run catalog AppState.initial earlier) svgName locus desiredDOMid)
        later := by
    rw [hsplit, run_append]
    rfl
  obtain ⟨hmem, happlied⟩ := run_after_absent catalog svgName habsent later _ hinv1
    (self_mem_clickList_generateSVG _ svgName locus desiredDOMid)
  rw [← hrun] at hmem happlied
  obtain ⟨hlt, hnot⟩ := (keys_length_bounds catalog _ hinv).2 svgName hmem habsent
  refine ⟨hlt, hnot, ?_⟩
  rw [happlied]
  exact (generateSVG_fields _ svgName locus desiredDOMid).2.2.1

/-- Witness of C18: with a catalog that holds `AbioticStress` only, the
request for `Missing` comes first; the later request for `AbioticStress` is
answered, its timer fires, and `addSVGtoDOM` is never called. -/
theorem readiness_invariant_witness :
    (run [("AbioticStress", { db := some "abiotic", sample := [("Leaf", ["S1"])] })]
      AppState.initial
      [Event.generate "Missing" "AT1G00000" "target", Event.catalogDone 0 200,
       Event.generate "AbioticStress.svg" "AT1G00000" "target",
       Event.queryDone 0 200 [{ name := "S1", value := JSVal.str "10" }],
       Event.timer 0, Event.timer 0]).clickList = ["Missing", "AbioticStress.svg"] ∧
    Obj.keys (run [("AbioticStress", { db := some "abiotic", sample := [("Leaf", ["S1"])] })]
      AppState.initial
      [Event.generate "Missing" "AT1G00000" "target", Event.catalogDone 0 200,
       Event.generate "AbioticStress.svg" "AT1G00000" "target",
       Event.queryDone 0 200 [{ name := "S1", value := JSVal.str "10" }],
       Event.timer 0, Event.timer 0]).eFPObjects = ["AbioticStress"] ∧
    (run [("AbioticStress", { db := some "abiotic", sample := [("Leaf", ["S1"])] })]
      AppState.initial
      [Event.generate "Missing" "AT1G00000" "target", Event.catalogDone 0 200,
       Event.generate "AbioticStress.svg" "AT1G00000" "target",
       Event.queryDone 0 200 [{ name := "S1", value := JSVal.str "10" }],
       Event.timer 0, Event.timer 0]).applied =
      (run [("AbioticStress", { db := some "abiotic", sample := [("Leaf", ["S1"])] })]
        AppState.initial []).applied := by
  refine ⟨by decide!, by decide!, ?_⟩
  exact ((readiness_invariant
    [("AbioticStress", { db := some "abiotic", sample := [("Leaf", ["S1"])] })]
    [Event.generate "Missing" "AT1G00000" "target", Event.catalogDone 0 200,
     Event.generate "AbioticStress.svg" "AT1G00000" "target",
     Event.queryDone 0 200 [{ name := "S1", value := JSVal.str "10" }],
     Event.timer 0, Event.timer 0]).2.2 []
    [Event.catalogDone 0 200, Event.generate "AbioticStress.svg" "AT1G00000" "target",
     Event.queryDone 0 200 [{ name := "S1", value := JSVal.str "10" }],
     Event.timer 0, Event.timer 0]
    "Missing" "AT1G00000" "target" rfl (by decide!)).2.2

end TissueExpressionBAR
